import Mathlib

/-!
# Verification of the address-validator core

A shallow embedding of the address parsing and standardization core
(`src/services/parser.py`, `src/services/standardizer.py`,
`src/usps_data/*`) together with proofs about the embedded functions.

Strings are modelled as `List Char`; Python `dict[str, str]` component
maps are modelled by a fixed-field record in which the absent key and
the empty string are identified (the data model declares this
invariant explicitly).  Python string primitives (`strip`, `upper`,
`replace`, `split`, `partition`, `startswith`) are embedded as
executable list functions below.
-/

/-- Strings of the embedded program: lists of characters. -/
abbrev Str := List Char

/-- Literal helper: the character list of a Lean string literal. -/
def str (s : String) : Str := s.data

/-- Python `str.strip()` from the left: drop leading whitespace. -/
def trimL (l : Str) : Str := l.dropWhile (fun c => c.isWhitespace)

/-- Python `str.strip()` from the right, via reversal. -/
def trimR (l : Str) : Str := (trimL l.reverse).reverse

/-- Python `str.strip()`: remove surrounding whitespace. -/
def trimWs (l : Str) : Str := trimR (trimL l)

/-- Is the character a comma or a semicolon (Python `strip(",;")`)? -/
def isCS (c : Char) : Bool := c = ',' || c = ';'

/-- Python `str.strip(",;")`: remove commas/semicolons from both ends. -/
def stripCS (l : Str) : Str :=
  ((l.dropWhile isCS).reverse.dropWhile isCS).reverse

/-- Python `str.upper()` (ASCII semantics, via `Char.toUpper`). -/
def upperStr (l : Str) : Str := l.map Char.toUpper

/-- Python `str.replace(".", "")`. -/
def rmDot (l : Str) : Str := l.filter (fun c => c ≠ '.')

/-- Python `str.replace("(", "").replace(")", "")`. -/
def rmParens (l : Str) : Str := l.filter (fun c => c ≠ '(' && c ≠ ')')

/-- The cleanup chain of `_get` in `standardizer.py`:
`strip → upper → remove periods → remove parentheses → strip(",;")`. -/
def clean (l : Str) : Str := stripCS (rmParens (rmDot (upperStr (trimWs l))))

/-- The cleanup chain inside `_lookup` in `standardizer.py`:
`upper → remove periods → remove parentheses → strip → strip(",;")`. -/
def lkClean (l : Str) : Str := stripCS (trimWs (rmParens (rmDot (upperStr l))))

/-- A USPS lookup table: ordered key/value pairs of strings. -/
abbrev Table := List (Str × Str)

/-- Python `table.get(k, k)`: value of the first matching key, else `k`. -/
def tblGet (t : Table) (k : Str) : Str :=
  match t.find? (fun p => p.1 == k) with
  | some p => p.2
  | none => k

/-- Python `table[k]` guarded by `k in table`: the value if present. -/
def tblVal (t : Table) (k : Str) : Option Str :=
  (t.find? (fun p => p.1 == k)).map (fun p => p.2)

/-- Python `k in table`. -/
def isKey (t : Table) (k : Str) : Bool := (t.find? (fun p => p.1 == k)).isSome

/-- `_lookup` from `standardizer.py`: defensive cleanup then table get
with identity fallback. -/
def luF (t : Table) (v : Str) : Str := tblGet t (lkClean v)

/-- `DIRECTIONAL_MAP` from `src/usps_data/directionals.py`. -/
def DIRECTIONAL_MAP : Table :=
  [(str "NORTH", str "N"), (str "N", str "N"),
   (str "SOUTH", str "S"), (str "S", str "S"),
   (str "EAST", str "E"), (str "E", str "E"),
   (str "WEST", str "W"), (str "W", str "W"),
   (str "NORTHEAST", str "NE"), (str "NE", str "NE"),
   (str "NORTHWEST", str "NW"), (str "NW", str "NW"),
   (str "SOUTHEAST", str "SE"), (str "SE", str "SE"),
   (str "SOUTHWEST", str "SW"), (str "SW", str "SW")]

/-- Modelled from the spec: `SUFFIX_MAP` (`src/usps_data/suffixes.py` is
not in the provided sources).  The spec describes the street-suffix
table as a static map from uppercased, period-stripped long/alternate
forms to USPS abbreviations, closed under its own abbreviations
(looking up a mapped value returns it unchanged). -/
def SUFFIX_MAP : Table :=
  [(str "STREET", str "ST"), (str "ST", str "ST"),
   (str "AVENUE", str "AVE"), (str "AVE", str "AVE"),
   (str "BOULEVARD", str "BLVD"), (str "BLVD", str "BLVD"),
   (str "ROAD", str "RD"), (str "RD", str "RD"),
   (str "DRIVE", str "DR"), (str "DR", str "DR"),
   (str "LANE", str "LN"), (str "LN", str "LN"),
   (str "COURT", str "CT"), (str "CT", str "CT")]

/-- Modelled from the spec: `STATE_MAP` (`src/usps_data/states.py` is
not in the provided sources).  State names map to two-letter USPS
abbreviations; the table is closed under its own abbreviations. -/
def STATE_MAP : Table :=
  [(str "WASHINGTON", str "WA"), (str "WA", str "WA"),
   (str "CALIFORNIA", str "CA"), (str "CA", str "CA"),
   (str "NEW YORK", str "NY"), (str "NY", str "NY"),
   (str "VIRGINIA", str "VA"), (str "VA", str "VA"),
   (str "FLORIDA", str "FL"), (str "FL", str "FL")]

/-- Modelled from the spec: `UNIT_MAP` (`src/usps_data/units.py` is not
in the provided sources).  Secondary-unit designators map to USPS
abbreviations (Pub 28 Appendix C); the table is closed under its own
abbreviations and contains the no-identifier designators listed in
`parser.py` (`BASEMENT`/`BSMT`, `FRONT`/`FRNT`, `LOBBY`/`LBBY`,
`LOWER`/`LOWR`, `PENTHOUSE`/`PH`, `REAR`, `SIDE`, `UPPER`/`UPPR`),
identifier-taking designators named by the spec (`KEY`, `LOT`, `UNIT`,
`STE`, ...) and the literal `#` designator used for unlabeled
secondary identifiers. -/
def UNIT_MAP : Table :=
  [(str "APARTMENT", str "APT"), (str "APT", str "APT"),
   (str "SUITE", str "STE"), (str "STE", str "STE"),
   (str "UNIT", str "UNIT"),
   (str "BUILDING", str "BLDG"), (str "BLDG", str "BLDG"),
   (str "FLOOR", str "FL"), (str "FL", str "FL"),
   (str "ROOM", str "RM"), (str "RM", str "RM"),
   (str "DEPARTMENT", str "DEPT"), (str "DEPT", str "DEPT"),
   (str "KEY", str "KEY"), (str "LOT", str "LOT"),
   (str "BASEMENT", str "BSMT"), (str "BSMT", str "BSMT"),
   (str "FRONT", str "FRNT"), (str "FRNT", str "FRNT"),
   (str "LOBBY", str "LBBY"), (str "LBBY", str "LBBY"),
   (str "LOWER", str "LOWR"), (str "LOWR", str "LOWR"),
   (str "PENTHOUSE", str "PH"), (str "PH", str "PH"),
   (str "REAR", str "REAR"), (str "SIDE", str "SIDE"),
   (str "UPPER", str "UPPR"), (str "UPPR", str "UPPR"),
   (str "NO", str "#"), (str "#", str "#")]

/-- `_NO_ID_DESIGNATORS` from `parser.py`: designators that never take
an identifier. -/
def NO_ID_DESIGNATORS : List Str :=
  [str "BASEMENT", str "BSMT", str "FRONT", str "FRNT",
   str "LOBBY", str "LBBY", str "LOWER", str "LOWR",
   str "PENTHOUSE", str "PH", str "REAR", str "SIDE",
   str "UPPER", str "UPPR"]

/-- `_ADDRESS_VOCABULARY` from `parser.py`: membership in the union of
the four tables' key sets. -/
def inVocab (w : Str) : Bool :=
  isKey UNIT_MAP w || isKey SUFFIX_MAP w || isKey DIRECTIONAL_MAP w ||
    isKey STATE_MAP w

/-- The component-map vocabulary that the core reads and writes,
as a fixed-field record.  Per the data model, a key being absent and a
key holding the empty string are equivalent, so every field simply
holds a `Str` and `[]` encodes absence.  The field
`address_number_pre` embeds the source key "address_number_prefix". -/
structure ComponentMap where
  address_number : Str
  address_number_pre : Str
  address_number_suffix : Str
  street_name_pre_directional : Str
  street_name_pre_modifier : Str
  street_name_pre_type : Str
  street_name : Str
  street_name_post_type : Str
  street_name_post_directional : Str
  street_name_post_modifier : Str
  second_street_name_pre_directional : Str
  second_street_name_pre_modifier : Str
  second_street_name_pre_type : Str
  second_street_name : Str
  second_street_name_post_type : Str
  second_street_name_post_directional : Str
  second_street_name_post_modifier : Str
  occupancy_type : Str
  occupancy_identifier : Str
  subaddress_type : Str
  subaddress_identifier : Str
  building_name : Str
  landmark_name : Str
  city : Str
  state : Str
  zip_code : Str
  usps_box_type : Str
  usps_box_id : Str
deriving DecidableEq

/-- The component map with every field empty. -/
def emptyCM : ComponentMap :=
  ⟨[], [], [], [], [], [], [], [], [], [], [], [], [], [],
   [], [], [], [], [], [], [], [], [], [], [], [], [], []⟩

/-- All field values of a component map, in declaration order. -/
def cmValues (m : ComponentMap) : List Str :=
  [m.address_number, m.address_number_pre, m.address_number_suffix,
   m.street_name_pre_directional, m.street_name_pre_modifier,
   m.street_name_pre_type, m.street_name, m.street_name_post_type,
   m.street_name_post_directional, m.street_name_post_modifier,
   m.second_street_name_pre_directional, m.second_street_name_pre_modifier,
   m.second_street_name_pre_type, m.second_street_name,
   m.second_street_name_post_type, m.second_street_name_post_directional,
   m.second_street_name_post_modifier,
   m.occupancy_type, m.occupancy_identifier,
   m.subaddress_type, m.subaddress_identifier,
   m.building_name, m.landmark_name,
   m.city, m.state, m.zip_code, m.usps_box_type, m.usps_box_id]

/-- Python `s.split(None, 1)`: `none` when `s` is all whitespace,
otherwise the first whitespace-delimited word and the remainder (with
the separating whitespace run removed; `[]` when there is no second
part). -/
def splitFirstWord (l : Str) : Option (Str × Str) :=
  let t := l.dropWhile (fun c => c.isWhitespace)
  if t = [] then none
  else some (t.takeWhile (fun c => !c.isWhitespace),
             (t.dropWhile (fun c => !c.isWhitespace)).dropWhile
               (fun c => c.isWhitespace))

/-- `word.upper().replace(".", "")` as used in `parser.py`. -/
def normWord (w : Str) : Str := rmDot (upperStr w)

/-- `_try_extract_designator` from `parser.py`. -/
def tryExtractDesignator (segment : Str) : Option (Str × Str) :=
  let s := trimWs segment
  if s = [] then none
  else
    match splitFirstWord s with
    | none => none
    | some (w, rest) =>
      if isKey UNIT_MAP (normWord w) then some (w, rest) else none

/-- A unit slot: the occupancy pair or the subaddress pair. -/
inductive Slot where
  | occ : Slot
  | sub : Slot
deriving DecidableEq

/-- `_next_free_unit_slot` from `parser.py`: the first pair whose type
and identifier fields are both empty, occupancy before subaddress. -/
def nextFreeSlot (m : ComponentMap) : Option Slot :=
  if m.occupancy_type = [] ∧ m.occupancy_identifier = [] then some Slot.occ
  else if m.subaddress_type = [] ∧ m.subaddress_identifier = [] then some Slot.sub
  else none

/-- Store a designator type into a slot's type field. -/
def setSlotType (m : ComponentMap) (s : Slot) (v : Str) : ComponentMap :=
  match s with
  | Slot.occ => { m with occupancy_type := v }
  | Slot.sub => { m with subaddress_type := v }

/-- Store an identifier into a slot's identifier field. -/
def setSlotId (m : ComponentMap) (s : Slot) (v : Str) : ComponentMap :=
  match s with
  | Slot.occ => { m with occupancy_identifier := v }
  | Slot.sub => { m with subaddress_identifier := v }

/-- Phase 1 of `_recover_unit_from_city` from `parser.py`: the while
loop peeling comma-separated leading designator segments off `city`. -/
def phase1 (m : ComponentMap) : ComponentMap :=
  if h : ',' ∈ m.city then
    let before := trimWs (m.city.takeWhile (fun c => c ≠ ','))
    let after := trimWs ((m.city.dropWhile (fun c => c ≠ ',')).drop 1)
    if before = [] ∨ after = [] then m
    else
      match tryExtractDesignator before with
      | some di =>
        let m1 :=
          match nextFreeSlot m with
          | some s =>
            let m2 := setSlotType m s di.1
            if di.2 ≠ [] then setSlotId m2 s di.2 else m2
          | none => m
        phase1 { m1 with city := after }
      | none =>
        if ¬ ' ' ∈ before ∧ inVocab (normWord before) = false then
          phase1 { m with city := after }
        else m
  else m
termination_by m.city.length
decreasing_by
  · show (trimWs ((m.city.dropWhile (fun c => c ≠ ',')).drop 1)).length <
      m.city.length
    have h1 : m.city.dropWhile (fun c => c ≠ ',') ≠ [] := by
      intro hnil
      rw [List.dropWhile_eq_nil_iff] at hnil
      have := hnil ',' h
      simp at this
    have h2 : ((m.city.dropWhile (fun c => c ≠ ',')).drop 1).length <
        m.city.length := by
      have hle := (List.dropWhile_sublist (l := m.city) (fun c => c ≠ ',')).length_le
      have hpos : 0 < (m.city.dropWhile (fun c => c ≠ ',')).length :=
        List.length_pos.mpr h1
      simp only [List.length_drop]
      omega
    calc (trimWs ((m.city.dropWhile (fun c => c ≠ ',')).drop 1)).length
        ≤ ((m.city.dropWhile (fun c => c ≠ ',')).drop 1).length := by
          simp only [trimWs, trimR, trimL, List.length_reverse]
          calc ((((m.city.dropWhile (fun c => c ≠ ',')).drop 1).dropWhile
                  (fun c => c.isWhitespace)).reverse.dropWhile
                  (fun c => c.isWhitespace)).length
              ≤ (((m.city.dropWhile (fun c => c ≠ ',')).drop 1).dropWhile
                  (fun c => c.isWhitespace)).reverse.length :=
                (List.dropWhile_sublist _).length_le
            _ ≤ ((m.city.dropWhile (fun c => c ≠ ',')).drop 1).length := by
                rw [List.length_reverse]
                exact (List.dropWhile_sublist _).length_le
      _ < m.city.length := h2
  · show (trimWs ((m.city.dropWhile (fun c => c ≠ ',')).drop 1)).length <
      m.city.length
    have h1 : m.city.dropWhile (fun c => c ≠ ',') ≠ [] := by
      intro hnil
      rw [List.dropWhile_eq_nil_iff] at hnil
      have := hnil ',' h
      simp at this
    have h2 : ((m.city.dropWhile (fun c => c ≠ ',')).drop 1).length <
        m.city.length := by
      have hle := (List.dropWhile_sublist (l := m.city) (fun c => c ≠ ',')).length_le
      have hpos : 0 < (m.city.dropWhile (fun c => c ≠ ',')).length :=
        List.length_pos.mpr h1
      simp only [List.length_drop]
      omega
    calc (trimWs ((m.city.dropWhile (fun c => c ≠ ',')).drop 1)).length
        ≤ ((m.city.dropWhile (fun c => c ≠ ',')).drop 1).length := by
          simp only [trimWs, trimR, trimL, List.length_reverse]
          calc ((((m.city.dropWhile (fun c => c ≠ ',')).drop 1).dropWhile
                  (fun c => c.isWhitespace)).reverse.dropWhile
                  (fun c => c.isWhitespace)).length
              ≤ (((m.city.dropWhile (fun c => c ≠ ',')).drop 1).dropWhile
                  (fun c => c.isWhitespace)).reverse.length :=
                (List.dropWhile_sublist _).length_le
            _ ≤ ((m.city.dropWhile (fun c => c ≠ ',')).drop 1).length := by
                rw [List.length_reverse]
                exact (List.dropWhile_sublist _).length_le
      _ < m.city.length := h2

/-- Phase 2 of `_recover_unit_from_city` from `parser.py`: a bare
leading designator word (no comma) at the start of `city`. -/
def phase2 (m : ComponentMap) : ComponentMap :=
  if m.city = [] ∨ ¬ ' ' ∈ m.city then m
  else
    let first := m.city.takeWhile (fun c => c ≠ ' ')
    let rest := trimWs ((m.city.dropWhile (fun c => c ≠ ' ')).drop 1)
    if rest = [] then m
    else
      let w := normWord first
      let slot := nextFreeSlot m
      if w ∈ NO_ID_DESIGNATORS then
        let m1 :=
          match slot with
          | some s => setSlotType m s first
          | none => m
        { m1 with city := rest }
      else if isKey UNIT_MAP w = true ∧ slot = none then { m with city := rest }
      else m

/-- `_recover_unit_from_city` from `parser.py`: phase 1 then phase 2. -/
def recoverUnitFromCity (m : ComponentMap) : ComponentMap := phase2 (phase1 m)

/-- `_recover_identifier_fragment_from_city` from `parser.py`. -/
def recoverIdentFragment (m : ComponentMap) : ComponentMap :=
  if m.city.length < 3 then m
  else
    match m.city with
    | a :: b :: tail =>
      if ¬ a.isAlpha = true ∨ b ≠ ' ' then m
      else
        let rest := trimWs tail
        if rest = [] then m
        else if m.occupancy_identifier ≠ [] then
          { m with occupancy_identifier := m.occupancy_identifier ++ [' ', a],
                   city := rest }
        else if m.subaddress_identifier ≠ [] then
          { m with subaddress_identifier := m.subaddress_identifier ++ [' ', a],
                   city := rest }
        else m
    | _ => m

/-- `_std_zip` from `standardizer.py`: keep digits; 9+ digits become
`NNNNN-NNNN`, 5+ digits become the first five, else pass through. -/
def stdZip (raw : Str) : Str :=
  let digits := raw.filter (fun c => c.isDigit)
  if digits.length ≥ 9 then digits.take 5 ++ '-' :: (digits.drop 5).take 4
  else if digits.length ≥ 5 then digits.take 5
  else digits

/-- The `building_name`/`landmark_name` fallback inside `standardize`:
split a cleaned fallback field whose first word is a unit designator. -/
def fbRecover (fb : Str) : Option (Str × Str) :=
  if fb = [] then none
  else
    match splitFirstWord fb with
    | none => none
    | some (w, rest) =>
      match tblVal UNIT_MAP w with
      | some val => some (val, rest)
      | none => none

/-- The designator-splitting step of the unlabeled-identifier
defaulting block (`standardizer.py` lines 195-200): if the leading
word of the identifier is a known designator, split it out as the
type, else default the type to the literal `#`. -/
def defaultSplit (id1 : Str) : Str × Str :=
  match splitFirstWord id1 with
  | some wr =>
    match tblVal UNIT_MAP wr.1 with
    | some val => (val, wr.2)
    | none => (str "#", id1)
  | none => (str "#", id1)

/-- The unlabeled-identifier defaulting block of `standardize`
(`standardizer.py` lines 185-200): strip a folded-in `#`, then split a
leading designator word out of the identifier, else default the
designator to the literal `#`. -/
def defaultUnitType (uid : Str) : Str × Str :=
  defaultSplit
    (if uid.take 2 = ['#', ' '] then trimWs (uid.drop 2)
     else if uid.take 1 = ['#'] then trimWs (uid.drop 1)
     else uid)

/-- One (type, identifier) pair as read at the top of the
secondary-unit resolution (`standardizer.py` lines 151-159): cleanup
plus unit-table lookup of the type. -/
def unitPair (t i : Str) : Str × Str :=
  (if clean t = [] then [] else luF UNIT_MAP (clean t), clean i)

/-- The `building_name`/`landmark_name` fallback loop
(`standardizer.py` lines 161-175): runs only when all four unit fields
are empty, trying `building_name` then `landmark_name`. -/
def fbChain (u s0 : Str × Str) (bn ln : Str) : Str × Str :=
  if u.1 = [] ∧ u.2 = [] ∧ s0.1 = [] ∧ s0.2 = [] then
    match fbRecover (clean bn) with
    | some r => r
    | none =>
      match fbRecover (clean ln) with
      | some r => r
      | none => ([], [])
  else u

/-- The subaddress-promotion step (`standardizer.py` lines 177-181):
when the occupancy pair is empty, promote the subaddress pair and
clear it. -/
def promoteUnits (p s0 : Str × Str) : Str × Str × Str × Str :=
  if p.1 = [] ∧ p.2 = [] then (s0.1, s0.2, [], []) else (p.1, p.2, s0.1, s0.2)

/-- The defaulting step (`standardizer.py` lines 183-208): when an
identifier exists with no type, run `defaultUnitType` on it. -/
def applyDefault (q : Str × Str × Str × Str) : Str × Str × Str × Str :=
  if q.2.1 ≠ [] ∧ q.1 = [] then
    ((defaultUnitType q.2.1).1, (defaultUnitType q.2.1).2, q.2.2.1, q.2.2.2)
  else q

/-- The secondary-unit resolution of `standardize` (`standardizer.py`
lines 151-208): read both pairs, recover from fallback fields, promote
subaddress into the empty occupancy slot, then default a missing
designator.  Returns (occupancy type, occupancy id, subaddress type,
subaddress id). -/
def unitResolve (ot oi sbt sbi bn ln : Str) : Str × Str × Str × Str :=
  applyDefault
    (promoteUnits (fbChain (unitPair ot oi) (unitPair sbt sbi) bn ln)
      (unitPair sbt sbi))

/-- The standardized component map built by `standardize`
(`standardizer.py` lines 129-231): per-field cleanup and lookup
normalization plus the secondary-unit resolution.  Fields never
written by the source (`building_name`, `landmark_name`) are empty. -/
def stdComponents (c : ComponentMap) : ComponentMap :=
  let u := unitResolve c.occupancy_type c.occupancy_identifier
    c.subaddress_type c.subaddress_identifier c.building_name c.landmark_name
  { address_number := clean c.address_number
    address_number_pre := clean c.address_number_pre
    address_number_suffix := clean c.address_number_suffix
    street_name_pre_directional :=
      if clean c.street_name_pre_directional = [] then []
      else luF DIRECTIONAL_MAP (clean c.street_name_pre_directional)
    street_name_pre_modifier := clean c.street_name_pre_modifier
    street_name_pre_type :=
      if clean c.street_name_pre_type = [] then []
      else luF SUFFIX_MAP (clean c.street_name_pre_type)
    street_name := clean c.street_name
    street_name_post_type :=
      if clean c.street_name_post_type = [] then []
      else luF SUFFIX_MAP (clean c.street_name_post_type)
    street_name_post_directional :=
      if clean c.street_name_post_directional = [] then []
      else luF DIRECTIONAL_MAP (clean c.street_name_post_directional)
    street_name_post_modifier := clean c.street_name_post_modifier
    second_street_name_pre_directional :=
      if clean c.second_street_name_pre_directional = [] then []
      else luF DIRECTIONAL_MAP (clean c.second_street_name_pre_directional)
    second_street_name_pre_modifier := clean c.second_street_name_pre_modifier
    second_street_name_pre_type :=
      if clean c.second_street_name_pre_type = [] then []
      else luF SUFFIX_MAP (clean c.second_street_name_pre_type)
    second_street_name := clean c.second_street_name
    second_street_name_post_type :=
      if clean c.second_street_name_post_type = [] then []
      else luF SUFFIX_MAP (clean c.second_street_name_post_type)
    second_street_name_post_directional :=
      if clean c.second_street_name_post_directional = [] then []
      else luF DIRECTIONAL_MAP (clean c.second_street_name_post_directional)
    second_street_name_post_modifier := clean c.second_street_name_post_modifier
    occupancy_type := u.1
    occupancy_identifier := u.2.1
    subaddress_type := u.2.2.1
    subaddress_identifier := u.2.2.2
    building_name := []
    landmark_name := []
    city := clean c.city
    state := if clean c.state = [] then [] else luF STATE_MAP (clean c.state)
    zip_code := if clean c.zip_code = [] then [] else stdZip (clean c.zip_code)
    usps_box_type := clean c.usps_box_type
    usps_box_id := clean c.usps_box_id }

/-- `" ".join(parts)`. -/
def joinSp (parts : List Str) : Str := List.intercalate [' '] parts

/-- `_street_parts` from `standardizer.py` for the primary street:
the ordered non-empty street tokens. -/
def streetTokens (s : ComponentMap) : List Str :=
  [s.street_name_pre_directional, s.street_name_pre_modifier,
   s.street_name_pre_type, s.street_name, s.street_name_post_type,
   s.street_name_post_directional, s.street_name_post_modifier].filter
    (fun x => x ≠ [])

/-- `_street_parts` from `standardizer.py` with the `second_` keys. -/
def secondStreetTokens (s : ComponentMap) : List Str :=
  [s.second_street_name_pre_directional, s.second_street_name_pre_modifier,
   s.second_street_name_pre_type, s.second_street_name,
   s.second_street_name_post_type, s.second_street_name_post_directional,
   s.second_street_name_post_modifier].filter (fun x => x ≠ [])

/-- The number tokens of line 1, in source order. -/
def numberTokens (s : ComponentMap) : List Str :=
  [s.address_number_pre, s.address_number, s.address_number_suffix].filter
    (fun x => x ≠ [])

/-- Line-1 assembly from `standardize` (`standardizer.py` 233-258). -/
def line1Of (s : ComponentMap) : Str :=
  let nums := numberTokens s
  let fs := streetTokens s
  let ss := secondStreetTokens s
  if fs ≠ [] ∧ ss ≠ [] then joinSp (nums ++ fs ++ [str "&"] ++ ss)
  else if fs ≠ [] ∨ nums ≠ [] then joinSp (nums ++ fs)
  else if s.usps_box_type ≠ [] ∨ s.usps_box_id ≠ [] then
    joinSp ([s.usps_box_type, s.usps_box_id].filter (fun x => x ≠ []))
  else []

/-- Line-2 assembly from `standardize` (`standardizer.py` 260-272). -/
def line2Of (s : ComponentMap) : Str :=
  joinSp ([s.subaddress_type, s.subaddress_identifier,
           s.occupancy_type, s.occupancy_identifier].filter (fun x => x ≠ []))

/-- Last-line assembly from `standardize` (`standardizer.py` 274-288). -/
def lastLineOf (s : ComponentMap) : Str :=
  let parts :=
    (if s.city ≠ [] ∧ s.state ≠ [] then [s.city ++ ',' :: ' ' :: s.state]
     else if s.city ≠ [] then [s.city]
     else if s.state ≠ [] then [s.state]
     else []) ++ (if s.zip_code ≠ [] then [s.zip_code] else [])
  joinSp parts

/-- The response record of `standardize` (`models.py`). -/
structure StandardizeResponse where
  address_line_1 : Str
  address_line_2 : Str
  city : Str
  state : Str
  zip_code : Str
  standardized : Str
  components : ComponentMap
deriving DecidableEq

/-- `standardize` from `standardizer.py`. -/
def standardize (c : ComponentMap) : StandardizeResponse :=
  let s := stdComponents c
  let l1 := line1Of s
  let l2 := line2Of s
  let ll := lastLineOf s
  { address_line_1 := l1
    address_line_2 := l2
    city := s.city
    state := s.state
    zip_code := s.zip_code
    standardized := List.intercalate [' ', ' ']
      ([l1, l2, ll].filter (fun x => x ≠ []))
    components := s }

/-- `TAG_NAMES` from `parser.py`: external tagging-engine labels to
canonical component keys. -/
def TAG_NAMES : Table :=
  [(str "AddressNumber", str "address_number"),
   (str "AddressNumberPrefix", str "address_number_prefix"),
   (str "AddressNumberSuffix", str "address_number_suffix"),
   (str "StreetNamePreDirectional", str "street_name_pre_directional"),
   (str "StreetNamePreModifier", str "street_name_pre_modifier"),
   (str "StreetNamePreType", str "street_name_pre_type"),
   (str "StreetName", str "street_name"),
   (str "StreetNamePostDirectional", str "street_name_post_directional"),
   (str "StreetNamePostModifier", str "street_name_post_modifier"),
   (str "StreetNamePostType", str "street_name_post_type"),
   (str "SubaddressType", str "subaddress_type"),
   (str "SubaddressIdentifier", str "subaddress_identifier"),
   (str "OccupancyType", str "occupancy_type"),
   (str "OccupancyIdentifier", str "occupancy_identifier"),
   (str "PlaceName", str "city"),
   (str "StateName", str "state"),
   (str "ZipCode", str "zip_code"),
   (str "USPSBoxType", str "usps_box_type"),
   (str "USPSBoxID", str "usps_box_id"),
   (str "USPSBoxGroupType", str "usps_box_group_type"),
   (str "USPSBoxGroupID", str "usps_box_group_id"),
   (str "BuildingName", str "building_name"),
   (str "Recipient", str "recipient"),
   (str "NotAddress", str "not_address"),
   (str "IntersectionSeparator", str "intersection_separator"),
   (str "LandmarkName", str "landmark_name"),
   (str "CornerOf", str "corner_of"),
   (str "SecondStreetName", str "second_street_name"),
   (str "SecondStreetNamePreDirectional",
    str "second_street_name_pre_directional"),
   (str "SecondStreetNamePreModifier", str "second_street_name_pre_modifier"),
   (str "SecondStreetNamePreType", str "second_street_name_pre_type"),
   (str "SecondStreetNamePostDirectional",
    str "second_street_name_post_directional"),
   (str "SecondStreetNamePostModifier", str "second_street_name_post_modifier"),
   (str "SecondStreetNamePostType", str "second_street_name_post_type")]

/-- `TAG_NAMES.get(label, label)` from `parse_address`. -/
def tagAdapt (lbl : Str) : Str := tblGet TAG_NAMES lbl

/-- The loop state of the ambiguity-recovery fallback in
`parse_address`: the output map (ordered key/value pairs as a Python
dict), the previously adapted key, and the pending-dual-separator
flag. -/
structure RecState where
  comps : List (Str × Str)
  prev : Option Str
  sep : Bool
deriving DecidableEq

/-- Python `key in components` for the ordered map. -/
def hasKey (comps : List (Str × Str)) (k : Str) : Bool :=
  comps.any (fun p => p.1 == k)

/-- Python `components[key] += suffix`: in-place value update. -/
def appendAt (comps : List (Str × Str)) (k : Str) (tail : Str) :
    List (Str × Str) :=
  comps.map (fun p => if p.1 == k then (p.1, p.2 ++ tail) else p)

/-- One iteration of the ambiguity-recovery loop in `parse_address`
(`parser.py` lines 244-267) over a (token, label) pair. -/
def recStep (stt : RecState) (tl : Str × Str) : RecState :=
  let key := tagAdapt tl.2
  if key = str "intersection_separator" ∧ stt.prev = some (str "address_number")
  then { comps := stt.comps, prev := some key, sep := true }
  else
    let comps1 :=
      if hasKey stt.comps key then
        appendAt stt.comps key
          (if key = str "address_number" ∧ stt.sep = true then '-' :: tl.1
           else ' ' :: tl.1)
      else stt.comps ++ [(key, tl.1)]
    { comps := comps1, prev := some key, sep := false }

/-- Run the ambiguity-recovery loop from a given state. -/
def runRec (stt : RecState) (pairs : List (Str × Str)) : RecState :=
  pairs.foldl recStep stt

/-- The parse response record (`models.py`); `rType` embeds the source
field "type". -/
structure ParseResponse where
  input : Str
  components : List (Str × Str)
  rType : Str
  warning : Option Str
deriving DecidableEq

/-- The `RepeatedLabelError` fallback of `parse_address` (`parser.py`
lines 239-273): recover a component map from the raw (token, label)
stream and return an Ambiguous response with the fixed warning. -/
def parseAmbiguous (raw : Str) (pairs : List (Str × Str)) : ParseResponse :=
  { input := raw
    components := (runRec { comps := [], prev := none, sep := false } pairs).comps
    rType := str "Ambiguous"
    warning := some (str "Repeated labels detected; parse may be inaccurate.") }

/-- A character that the cleanup chain never removes or exposes: not a
comma, semicolon, period, or parenthesis. -/
def plainChar (c : Char) : Bool :=
  c ≠ ',' && c ≠ ';' && c ≠ '.' && c ≠ '(' && c ≠ ')'

/-- A string of plain characters only. -/
def plainStr (l : Str) : Bool := l.all plainChar

/-- A component map whose values are plain strings. -/
def plainCM (m : ComponentMap) : Bool := (cmValues m).all plainStr

/-- No whitespace at either end of the string. -/
def noWsEnds (l : Str) : Bool :=
  (l.head?.all fun c => !c.isWhitespace) &&
    (l.getLast?.all fun c => !c.isWhitespace)

/-- A string that the cleanup chains fix: plain, already uppercase,
and without surrounding whitespace. -/
def goodStr (l : Str) : Bool :=
  plainStr l && l.all (fun c => c.toUpper == c) && noWsEnds l

/-- The facts about a lookup table used by the idempotence proofs: its
values are good non-empty strings on which the table-get is the
identity (closure under its own abbreviations), and the empty string
is not a key. -/
def tableGood (t : Table) : Prop :=
  (∀ p ∈ t, goodStr p.2 = true ∧ p.2 ≠ [] ∧ tblGet t p.2 = p.2) ∧
    tblGet t [] = []

/-! ## Character-level facts about the embedded `upper` -/

theorem charToNat_ofNat (n : Nat) (h : n < 55296) : (Char.ofNat n).toNat = n := by
  have hv : n.isValidChar := Or.inl h
  rw [Char.ofNat, dif_pos hv]
  simp [Char.ofNatAux, Char.toNat, UInt32.toNat]

theorem toUpper_def (c : Char) :
    c.toUpper =
      if c.toNat ≥ 97 ∧ c.toNat ≤ 122 then Char.ofNat (c.toNat - 32) else c :=
  rfl

theorem toUpper_eq_iff_of_low {c t : Char} (ht : t.toNat < 65) :
    (c.toUpper = t) ↔ (c = t) := by
  rw [toUpper_def]
  by_cases h : c.toNat ≥ 97 ∧ c.toNat ≤ 122
  · rw [if_pos h]
    constructor
    · intro he
      have := congrArg Char.toNat he
      rw [charToNat_ofNat (c.toNat - 32) (by omega)] at this
      omega
    · intro he
      have := congrArg Char.toNat he
      omega
  · rw [if_neg h]

theorem toUpper_idem (c : Char) : c.toUpper.toUpper = c.toUpper := by
  rw [toUpper_def c]
  by_cases h : c.toNat ≥ 97 ∧ c.toNat ≤ 122
  · rw [if_pos h, toUpper_def]
    have h2 : (Char.ofNat (c.toNat - 32)).toNat = c.toNat - 32 :=
      charToNat_ofNat _ (by omega)
    rw [if_neg (by omega)]
  · rw [if_neg h, toUpper_def, if_neg h]

theorem decide_toUpper_eq (c t : Char) (ht : t.toNat < 65) :
    (decide (c.toUpper = t)) = (decide (c = t)) := by
  rw [decide_eq_decide]
  exact toUpper_eq_iff_of_low ht

theorem decide_toUpper_ne (c t : Char) (ht : t.toNat < 65) :
    (decide ¬ c.toUpper = t) = (decide ¬ c = t) := by
  rw [decide_eq_decide]
  exact not_iff_not.mpr (toUpper_eq_iff_of_low ht)

theorem ws_toUpper (c : Char) : c.toUpper.isWhitespace = c.isWhitespace := by
  simp only [Char.isWhitespace]
  rw [decide_toUpper_eq _ _ (by decide), decide_toUpper_eq _ _ (by decide),
    decide_toUpper_eq _ _ (by decide), decide_toUpper_eq _ _ (by decide)]

theorem plain_toUpper (c : Char) : plainChar c.toUpper = plainChar c := by
  simp only [plainChar]
  rw [decide_toUpper_ne _ _ (by decide), decide_toUpper_ne _ _ (by decide),
    decide_toUpper_ne _ _ (by decide), decide_toUpper_ne _ _ (by decide),
    decide_toUpper_ne _ _ (by decide)]

/-! ## List-level facts about trimming, stripping and uppercasing -/

theorem dropWhile_all_eq_self {p : Char → Bool} {l : Str}
    (h : ∀ c ∈ l, p c = false) : l.dropWhile p = l := by
  cases l with
  | nil => rfl
  | cons a t =>
    rw [List.dropWhile_cons, if_neg]
    simp [h a (by simp)]

theorem head?_dropWhile {p : Char → Bool} {l : Str} {c : Char}
    (h : (l.dropWhile p).head? = some c) : p c = false := by
  induction l with
  | nil => simp [List.dropWhile_nil] at h
  | cons a t ih =>
    rw [List.dropWhile_cons] at h
    by_cases hp : p a = true
    · rw [if_pos hp] at h
      exact ih h
    · rw [if_neg hp] at h
      simp only [List.head?_cons, Option.some_inj] at h
      subst h
      simpa using hp

theorem getLast?_dropWhile {p : Char → Bool} {l : Str}
    (h : l.dropWhile p ≠ []) : (l.dropWhile p).getLast? = l.getLast? := by
  induction l with
  | nil => simp [List.dropWhile_nil] at h
  | cons a t ih =>
    rw [List.dropWhile_cons]
    by_cases hp : p a = true
    · rw [List.dropWhile_cons, if_pos hp] at h
      have ht : t ≠ [] := by
        intro he
        subst he
        simp [List.dropWhile_nil] at h
      rw [if_pos hp, ih h]
      cases t with
      | nil => exact absurd rfl ht
      | cons b u => simp [List.getLast?_cons_cons]
    · rw [if_neg hp]

theorem mem_trimWs {l : Str} {c : Char} (h : c ∈ trimWs l) : c ∈ l := by
  simp only [trimWs, trimR, trimL] at h
  rw [List.mem_reverse] at h
  have h1 := (List.dropWhile_sublist (l := (l.dropWhile fun c => c.isWhitespace).reverse) (fun c => c.isWhitespace)).subset h
  rw [List.mem_reverse] at h1
  exact (List.dropWhile_sublist _).subset h1

theorem trimL_eq_self {l : Str}
    (h : l.head?.all (fun c => !c.isWhitespace) = true) : trimL l = l := by
  cases l with
  | nil => rfl
  | cons a t =>
    simp only [List.head?_cons, Option.all_some, Bool.not_eq_eq_eq_not,
      Bool.not_true] at h
    rw [trimL, List.dropWhile_cons, if_neg]
    simp [h]

theorem trimWs_eq_self {l : Str} (h : noWsEnds l = true) : trimWs l = l := by
  rw [noWsEnds, Bool.and_eq_true] at h
  have h1 : trimL l = l := trimL_eq_self h.1
  rw [trimWs, h1, trimR]
  have h2 : trimL l.reverse = l.reverse := by
    apply trimL_eq_self
    rw [List.head?_reverse]
    exact h.2
  rw [h2, List.reverse_reverse]

theorem noWsEnds_trimWs (l : Str) : noWsEnds (trimWs l) = true := by
  have hform : trimWs l = (trimL (trimL l).reverse).reverse := rfl
  by_cases hz : trimL (trimL l).reverse = []
  · rw [noWsEnds, hform, hz]
    rfl
  · rw [noWsEnds, hform, Bool.and_eq_true]
    constructor
    · rw [List.head?_reverse, trimL, getLast?_dropWhile hz,
        List.getLast?_reverse]
      cases hh : (trimL l).head? with
      | none => rfl
      | some c =>
        have : trimL l ≠ [] := by
          intro he
          rw [he] at hh
          simp at hh
        simp only [Option.all_some]
        have := head?_dropWhile (p := fun c => c.isWhitespace) (l := l) hh
        simp [this]
    · rw [List.getLast?_reverse]
      cases hh : (trimL (trimL l).reverse).head? with
      | none => rfl
      | some c =>
        simp only [Option.all_some]
        have := head?_dropWhile (p := fun c => c.isWhitespace)
          (l := (trimL l).reverse) hh
        simp [this]

theorem trimWs_idem (l : Str) : trimWs (trimWs l) = trimWs l :=
  trimWs_eq_self (noWsEnds_trimWs l)

theorem stripCS_eq_self {l : Str} (h : ∀ c ∈ l, isCS c = false) :
    stripCS l = l := by
  rw [stripCS, dropWhile_all_eq_self h, dropWhile_all_eq_self, List.reverse_reverse]
  intro c hc
  exact h c (List.mem_reverse.mp hc)

theorem upperStr_eq_self {l : Str} (h : ∀ c ∈ l, c.toUpper = c) :
    upperStr l = l := by
  rw [upperStr]
  calc l.map Char.toUpper = l.map id := List.map_congr_left h
    _ = l := List.map_id l

theorem upFixed_upperStr (l : Str) : ∀ c ∈ upperStr l, c.toUpper = c := by
  intro c hc
  rw [upperStr, List.mem_map] at hc
  obtain ⟨a, _, rfl⟩ := hc
  exact toUpper_idem a

/-! ## Cleanup-chain characterization on plain strings -/

theorem plainStr_spec {l : Str} (h : plainStr l = true) :
    ∀ c ∈ l, plainChar c = true := by
  rw [plainStr, List.all_eq_true] at h
  exact h

theorem plainChar_spec {c : Char} (h : plainChar c = true) :
    c ≠ ',' ∧ c ≠ ';' ∧ c ≠ '.' ∧ c ≠ '(' ∧ c ≠ ')' := by
  simp only [plainChar, Bool.and_eq_true, decide_eq_true_eq] at h
  exact ⟨h.1.1.1.1, h.1.1.1.2, h.1.1.2, h.1.2, h.2⟩

theorem rmDot_eq_self {l : Str} (h : ∀ c ∈ l, plainChar c = true) :
    rmDot l = l := by
  rw [rmDot, List.filter_eq_self]
  intro a ha
  have := (plainChar_spec (h a ha)).2.2.1
  simp [this]

theorem rmParens_eq_self {l : Str} (h : ∀ c ∈ l, plainChar c = true) :
    rmParens l = l := by
  rw [rmParens, List.filter_eq_self]
  intro a ha
  obtain ⟨-, -, -, h4, h5⟩ := plainChar_spec (h a ha)
  simp [h4, h5]

theorem stripCS_plain {l : Str} (h : ∀ c ∈ l, plainChar c = true) :
    stripCS l = l := by
  apply stripCS_eq_self
  intro c hc
  obtain ⟨h1, h2, -, -, -⟩ := plainChar_spec (h c hc)
  simp [isCS, h1, h2]

theorem clean_plain {l : Str} (h : plainStr l = true) :
    clean l = upperStr (trimWs l) := by
  have hmem : ∀ c ∈ trimWs l, plainChar c = true := fun c hc =>
    plainStr_spec h c (mem_trimWs hc)
  have hup : ∀ c ∈ upperStr (trimWs l), plainChar c = true := by
    intro c hc
    rw [upperStr, List.mem_map] at hc
    obtain ⟨a, ha, rfl⟩ := hc
    rw [plain_toUpper]
    exact hmem a ha
  rw [clean, rmDot_eq_self hup, rmParens_eq_self hup, stripCS_plain hup]

theorem goodStr_spec {l : Str} (h : goodStr l = true) :
    plainStr l = true ∧ (∀ c ∈ l, c.toUpper = c) ∧ noWsEnds l = true := by
  simp only [goodStr, Bool.and_eq_true, List.all_eq_true, beq_iff_eq] at h
  exact ⟨h.1.1, h.1.2, h.2⟩

theorem goodStr_intro {l : Str} (h1 : plainStr l = true)
    (h2 : ∀ c ∈ l, c.toUpper = c) (h3 : noWsEnds l = true) :
    goodStr l = true := by
  simp only [goodStr, Bool.and_eq_true, List.all_eq_true, beq_iff_eq]
  exact ⟨⟨h1, h2⟩, h3⟩

theorem good_clean {l : Str} (h : plainStr l = true) :
    goodStr (clean l) = true := by
  rw [clean_plain h]
  have hmem : ∀ c ∈ trimWs l, plainChar c = true := fun c hc =>
    plainStr_spec h c (mem_trimWs hc)
  apply goodStr_intro
  · rw [plainStr, List.all_eq_true]
    intro c hc
    rw [upperStr, List.mem_map] at hc
    obtain ⟨a, ha, rfl⟩ := hc
    rw [plain_toUpper]
    exact hmem a ha
  · exact upFixed_upperStr _
  · have hn := noWsEnds_trimWs l
    rw [noWsEnds, Bool.and_eq_true] at hn ⊢
    constructor
    · rw [upperStr, List.head?_map]
      cases hh : (trimWs l).head? with
      | none => rfl
      | some c =>
        rw [hh] at hn
        show (!(Char.toUpper c).isWhitespace) = true
        rw [ws_toUpper]
        exact hn.1
    · rw [upperStr, List.getLast?_map]
      cases hh : (trimWs l).getLast? with
      | none => rfl
      | some c =>
        rw [hh] at hn
        show (!(Char.toUpper c).isWhitespace) = true
        rw [ws_toUpper]
        exact hn.2

theorem good_fix {l : Str} (h : goodStr l = true) :
    clean l = l ∧ lkClean l = l := by
  obtain ⟨hp, hu, hw⟩ := goodStr_spec h
  have hmem := plainStr_spec hp
  have hcl : clean l = l := by
    rw [clean_plain hp, trimWs_eq_self hw, upperStr_eq_self hu]
  have hlk : lkClean l = l := by
    rw [lkClean, upperStr_eq_self hu, rmDot_eq_self hmem,
      rmParens_eq_self hmem, trimWs_eq_self hw, stripCS_plain hmem]
  exact ⟨hcl, hlk⟩

/-! ## Table facts and idempotence of per-field standardization -/

theorem dir_tableGood : tableGood DIRECTIONAL_MAP := ⟨by decide, by decide⟩

theorem suffix_tableGood : tableGood SUFFIX_MAP := ⟨by decide, by decide⟩

theorem state_tableGood : tableGood STATE_MAP := ⟨by decide, by decide⟩

theorem unit_tableGood : tableGood UNIT_MAP := ⟨by decide, by decide⟩

theorem tblGet_stable {t : Table} (ht : tableGood t) {v : Str}
    (hfix : clean v = v ∧ lkClean v = v) :
    clean (tblGet t v) = tblGet t v ∧ lkClean (tblGet t v) = tblGet t v ∧
      tblGet t (tblGet t v) = tblGet t v ∧ (v ≠ [] → tblGet t v ≠ []) := by
  cases hf : t.find? (fun p => p.1 == v) with
  | none =>
    have he : tblGet t v = v := by rw [tblGet, hf]
    rw [he]
    exact ⟨hfix.1, hfix.2, he, fun h => h⟩
  | some p =>
    have he : tblGet t v = p.2 := by rw [tblGet, hf]
    have hmem : p ∈ t := List.mem_of_find?_eq_some hf
    obtain ⟨hg, hne, hcl⟩ := ht.1 p hmem
    have hfix2 := good_fix hg
    rw [he]
    exact ⟨hfix2.1, hfix2.2, hcl, fun _ => hne⟩

theorem clean_idem {v : Str} (hp : plainStr v = true) :
    clean (clean v) = clean v :=
  (good_fix (good_clean hp)).1

theorem clean_nil : clean ([] : Str) = [] := rfl

theorem lookup_idem {t : Table} (ht : tableGood t) {v : Str}
    (hp : plainStr v = true) :
    (if clean (if clean v = [] then [] else luF t (clean v)) = [] then []
     else luF t (clean (if clean v = [] then [] else luF t (clean v)))) =
    (if clean v = [] then [] else luF t (clean v)) := by
  by_cases h0 : clean v = []
  · rw [if_pos h0, if_pos clean_nil]
  · rw [if_neg h0]
    have hgood := good_clean hp
    have hfix := good_fix hgood
    have hluF : luF t (clean v) = tblGet t (clean v) := by rw [luF, hfix.2]
    obtain ⟨hc, hlk, hcl, hne⟩ := tblGet_stable ht ⟨hfix.1, hfix.2⟩
    rw [hluF, hc, if_neg (hne h0), luF, hlk, hcl]

/-! ## ZIP normalization: stability facts -/

theorem ws_not_digit {c : Char} (h : c.isWhitespace = true) :
    c.isDigit = false := by
  simp only [Char.isWhitespace, Bool.or_eq_true, decide_eq_true_eq] at h
  rcases h with ((h | h) | h) | h <;> (subst h; decide)

theorem noWsEnds_of_all {l : Str} (h : ∀ c ∈ l, c.isWhitespace = false) :
    noWsEnds l = true := by
  rw [noWsEnds, Bool.and_eq_true]
  constructor
  · cases hh : l.head? with
    | none => rfl
    | some c =>
      show (!c.isWhitespace) = true
      have : c ∈ l := by
        cases l with
        | nil => simp at hh
        | cons a t =>
          simp only [List.head?_cons, Option.some_inj] at hh
          subst hh
          simp
      simp [h c this]
  · cases hh : l.getLast? with
    | none => rfl
    | some c =>
      show (!c.isWhitespace) = true
      have : c ∈ l := by
        have h2 : l.reverse.head? = some c := by rw [List.head?_reverse, hh]
        have : c ∈ l.reverse := by
          cases hr : l.reverse with
          | nil => rw [hr] at h2; simp at h2
          | cons a t =>
            rw [hr] at h2
            simp only [List.head?_cons, Option.some_inj] at h2
            subst h2
            simp
        exact List.mem_reverse.mp this
      simp [h c this]

theorem stdZip_chars {v : Str} :
    ∀ c ∈ stdZip v, (c.isDigit = true ∧ c ∈ v) ∨ c = '-' := by
  intro c hc
  simp only [stdZip] at hc
  have hsub : ∀ x ∈ v.filter (fun c => c.isDigit), x.isDigit = true ∧ x ∈ v :=
    fun x hx => ⟨(List.mem_filter.mp hx).2, (List.mem_filter.mp hx).1⟩
  by_cases h9 : (v.filter (fun c => c.isDigit)).length ≥ 9
  · rw [if_pos h9] at hc
    rcases List.mem_append.mp hc with h | h
    · exact Or.inl (hsub c (List.take_subset _ _ h))
    · rcases List.mem_cons.mp h with h | h
      · exact Or.inr h
      · exact Or.inl (hsub c (List.drop_subset _ _ (List.take_subset _ _ h)))
  · rw [if_neg h9] at hc
    by_cases h5 : (v.filter (fun c => c.isDigit)).length ≥ 5
    · rw [if_pos h5] at hc
      exact Or.inl (hsub c (List.take_subset _ _ hc))
    · rw [if_neg h5] at hc
      exact Or.inl (hsub c hc)

theorem stdZip_stdZip (v : Str) : stdZip (stdZip v) = stdZip v := by
  have halld : ∀ c ∈ v.filter (fun c => c.isDigit), c.isDigit = true :=
    fun c hc => (List.mem_filter.mp hc).2
  have key : ∀ z : Str, z = stdZip v → stdZip z = z := by
    intro z hzeq
    by_cases h9 : (v.filter (fun c => c.isDigit)).length ≥ 9
    · have hz : z =
          (v.filter (fun c => c.isDigit)).take 5 ++
            '-' :: ((v.filter (fun c => c.isDigit)).drop 5).take 4 := by
        rw [hzeq]
        simp only [stdZip]
        rw [if_pos h9]
      have hl5 : ((v.filter (fun c => c.isDigit)).take 5).length = 5 := by
        rw [List.length_take]
        omega
      have hl4 : (((v.filter (fun c => c.isDigit)).drop 5).take 4).length = 4 := by
        rw [List.length_take, List.length_drop]
        omega
      have hfil : z.filter (fun c => c.isDigit) =
          (v.filter (fun c => c.isDigit)).take 5 ++
            ((v.filter (fun c => c.isDigit)).drop 5).take 4 := by
        rw [hz, List.filter_append, List.filter_cons_of_neg (by decide),
          List.filter_eq_self.mpr
            (fun a ha => halld a (List.take_subset _ _ ha)),
          List.filter_eq_self.mpr
            (fun a ha => halld a (List.drop_subset _ _ (List.take_subset _ _ ha)))]
      simp only [stdZip]
      rw [hfil, if_pos (by rw [List.length_append, hl5, hl4]),
        List.take_left' hl5, List.drop_left' hl5,
        List.take_of_length_le (le_of_eq hl4)]
      exact hz.symm
    · by_cases h5 : (v.filter (fun c => c.isDigit)).length ≥ 5
      · have hz : z = (v.filter (fun c => c.isDigit)).take 5 := by
          rw [hzeq]
          simp only [stdZip]
          rw [if_neg h9, if_pos h5]
        have hl5 : ((v.filter (fun c => c.isDigit)).take 5).length = 5 := by
          rw [List.length_take]
          omega
        have hfil : z.filter (fun c => c.isDigit) = z := by
          rw [hz]
          exact List.filter_eq_self.mpr
            (fun a ha => halld a (List.take_subset _ _ ha))
        simp only [stdZip]
        rw [hfil, if_neg (by rw [hz, hl5]; omega), if_pos (by rw [hz, hl5]),
          hz, List.take_of_length_le (le_of_eq hl5)]
      · have hz : z = v.filter (fun c => c.isDigit) := by
          rw [hzeq]
          simp only [stdZip]
          rw [if_neg h9, if_neg h5]
        have hfil : z.filter (fun c => c.isDigit) = z := by
          rw [hz]
          exact List.filter_eq_self.mpr halld
        simp only [stdZip]
        rw [hfil, if_neg (by rw [hz]; omega), if_neg (by rw [hz]; omega)]
  exact key _ rfl

theorem goodStr_stdZip {v : Str} (hg : goodStr v = true) :
    goodStr (stdZip v) = true := by
  obtain ⟨hp, hu, -⟩ := goodStr_spec hg
  apply goodStr_intro
  · rw [plainStr, List.all_eq_true]
    intro c hc
    rcases stdZip_chars c hc with ⟨-, hv⟩ | h
    · exact plainStr_spec hp c hv
    · subst h
      decide
  · intro c hc
    rcases stdZip_chars c hc with ⟨-, hv⟩ | h
    · exact hu c hv
    · subst h
      decide
  · apply noWsEnds_of_all
    intro c hc
    rcases stdZip_chars c hc with ⟨hd, -⟩ | h
    · by_cases hw : c.isWhitespace = true
      · rw [ws_not_digit hw] at hd
        exact absurd hd (by simp)
      · simpa using hw
    · subst h
      decide

theorem zipField_idem {v : Str} (hp : plainStr v = true) :
    (if clean (if clean v = [] then [] else stdZip (clean v)) = [] then []
     else stdZip (clean (if clean v = [] then [] else stdZip (clean v)))) =
    (if clean v = [] then [] else stdZip (clean v)) := by
  by_cases h0 : clean v = []
  · rw [if_pos h0, if_pos clean_nil]
  · rw [if_neg h0]
    have hgood := good_clean hp
    have hzgood := goodStr_stdZip hgood
    have hzfix := good_fix hzgood
    by_cases hz : stdZip (clean v) = []
    · rw [hz, if_pos clean_nil]
    · rw [hzfix.1, if_neg hz, stdZip_stdZip]

/-! ## Secondary-unit resolution: stability facts -/

theorem goodStr_nil : goodStr [] = true := by decide

theorem good_trim_drop {l : Str} (hg : goodStr l = true) (n : Nat) :
    goodStr (trimWs (l.drop n)) = true := by
  obtain ⟨hp, hu, -⟩ := goodStr_spec hg
  apply goodStr_intro
  · rw [plainStr, List.all_eq_true]
    intro c hc
    exact plainStr_spec hp c (List.drop_subset _ _ (mem_trimWs hc))
  · intro c hc
    exact hu c (List.drop_subset _ _ (mem_trimWs hc))
  · exact noWsEnds_trimWs _

theorem good_split {l w r : Str} (hg : goodStr l = true)
    (h : splitFirstWord l = some (w, r)) :
    goodStr w = true ∧ goodStr r = true := by
  obtain ⟨hp, hu, hw⟩ := goodStr_spec hg
  simp only [splitFirstWord] at h
  by_cases ht : l.dropWhile (fun c => c.isWhitespace) = []
  · rw [if_pos ht] at h
    exact absurd h (by simp)
  · rw [if_neg ht] at h
    simp only [Option.some_inj, Prod.mk.injEq] at h
    obtain ⟨hwdef, hrdef⟩ := h
    have hsubt : ∀ c ∈ l.dropWhile (fun c => c.isWhitespace), c ∈ l :=
      fun c hc => List.dropWhile_subset _ hc
    constructor
    · rw [← hwdef]
      apply goodStr_intro
      · rw [plainStr, List.all_eq_true]
        intro c hc
        exact plainStr_spec hp c (hsubt c (List.takeWhile_subset _ hc))
      · intro c hc
        exact hu c (hsubt c (List.takeWhile_subset _ hc))
      · apply noWsEnds_of_all
        intro c hc
        have := List.mem_takeWhile_imp hc
        simpa using this
    · rw [← hrdef]
      apply goodStr_intro
      · rw [plainStr, List.all_eq_true]
        intro c hc
        exact plainStr_spec hp c
          (hsubt c (List.dropWhile_subset _ (List.dropWhile_subset _ hc)))
      · intro c hc
        exact hu c
          (hsubt c (List.dropWhile_subset _ (List.dropWhile_subset _ hc)))
      · by_cases hr0 :
          ((l.dropWhile (fun c => c.isWhitespace)).dropWhile
            (fun c => !c.isWhitespace)).dropWhile (fun c => c.isWhitespace) = []
        · rw [hr0]
          decide
        · rw [noWsEnds, Bool.and_eq_true]
          constructor
          · cases hh : (((l.dropWhile (fun c => c.isWhitespace)).dropWhile
                (fun c => !c.isWhitespace)).dropWhile
                (fun c => c.isWhitespace)).head? with
            | none => rfl
            | some c =>
              show (!c.isWhitespace) = true
              simp [head?_dropWhile hh]
          · have hy : (l.dropWhile (fun c => c.isWhitespace)).dropWhile
                (fun c => !c.isWhitespace) ≠ [] := by
              intro he
              rw [he] at hr0
              exact hr0 rfl
            rw [getLast?_dropWhile hr0, getLast?_dropWhile hy,
              getLast?_dropWhile ht]
            rw [noWsEnds, Bool.and_eq_true] at hw
            exact hw.2

theorem tblVal_facts {w v : Str} (h : tblVal UNIT_MAP w = some v) :
    goodStr v = true ∧ tblGet UNIT_MAP v = v ∧ v ≠ [] := by
  rw [tblVal] at h
  cases hf : UNIT_MAP.find? (fun p => p.1 == w) with
  | none => rw [hf] at h; exact absurd h (by simp)
  | some p =>
    rw [hf] at h
    simp only [Option.map_some', Option.some_inj] at h
    subst h
    obtain ⟨hg, hne, hcl⟩ := unit_tableGood.1 p (List.mem_of_find?_eq_some hf)
    exact ⟨hg, hcl, hne⟩

theorem typeRound {v : Str} (hp : plainStr v = true) :
    goodStr (if clean v = [] then [] else luF UNIT_MAP (clean v)) = true ∧
      tblGet UNIT_MAP (if clean v = [] then [] else luF UNIT_MAP (clean v)) =
        (if clean v = [] then [] else luF UNIT_MAP (clean v)) := by
  by_cases h0 : clean v = []
  · rw [if_pos h0]
    exact ⟨goodStr_nil, unit_tableGood.2⟩
  · rw [if_neg h0]
    have hg := good_clean hp
    have hfix := good_fix hg
    rw [luF, hfix.2]
    cases hf : UNIT_MAP.find? (fun p => p.1 == clean v) with
    | none =>
      have he : tblGet UNIT_MAP (clean v) = clean v := by rw [tblGet, hf]
      rw [he]
      exact ⟨hg, he⟩
    | some p =>
      have he : tblGet UNIT_MAP (clean v) = p.2 := by rw [tblGet, hf]
      obtain ⟨hgp, -, hclp⟩ := unit_tableGood.1 p (List.mem_of_find?_eq_some hf)
      rw [he]
      exact ⟨hgp, hclp⟩

theorem fbRecover_facts {fb w r : Str} (hg : goodStr fb = true)
    (h : fbRecover fb = some (w, r)) :
    goodStr w = true ∧ tblGet UNIT_MAP w = w ∧ w ≠ [] ∧ goodStr r = true := by
  simp only [fbRecover] at h
  by_cases hfb : fb = []
  · rw [if_pos hfb] at h
    exact absurd h (by simp)
  · rw [if_neg hfb] at h
    cases hsp : splitFirstWord fb with
    | none => rw [hsp] at h; exact absurd h (by simp)
    | some wr =>
      rw [hsp] at h
      cases htv : tblVal UNIT_MAP wr.1 with
      | none => simp only [htv] at h; exact absurd h (by simp)
      | some val =>
        simp only [htv, Option.some_inj, Prod.mk.injEq] at h
        obtain ⟨hw2, hr⟩ := h
        subst hw2 hr
        obtain ⟨h1, h2, h3⟩ := tblVal_facts htv
        have hsplit := good_split hg (by rw [hsp])
        exact ⟨h1, h2, h3, hsplit.2⟩

theorem defaultSplit_facts {x : Str} (hg : goodStr x = true) :
    goodStr (defaultSplit x).1 = true ∧
      tblGet UNIT_MAP (defaultSplit x).1 = (defaultSplit x).1 ∧
      (defaultSplit x).1 ≠ [] ∧ goodStr (defaultSplit x).2 = true := by
  cases hsp : splitFirstWord x with
  | none =>
    simp only [defaultSplit, hsp]
    exact ⟨by decide, by decide, by decide, hg⟩
  | some wr =>
    cases htv : tblVal UNIT_MAP wr.1 with
    | none =>
      simp only [defaultSplit, hsp, htv]
      exact ⟨by decide, by decide, by decide, hg⟩
    | some val =>
      simp only [defaultSplit, hsp, htv]
      obtain ⟨h1, h2, h3⟩ := tblVal_facts htv
      have hsplit := good_split hg (by rw [hsp])
      exact ⟨h1, h2, h3, hsplit.2⟩

theorem defaultUnitType_facts {uid : Str} (hg : goodStr uid = true) :
    goodStr (defaultUnitType uid).1 = true ∧
      tblGet UNIT_MAP (defaultUnitType uid).1 = (defaultUnitType uid).1 ∧
      (defaultUnitType uid).1 ≠ [] ∧ goodStr (defaultUnitType uid).2 = true := by
  rw [defaultUnitType]
  apply defaultSplit_facts
  by_cases h2 : uid.take 2 = ['#', ' ']
  · rw [if_pos h2]
    exact good_trim_drop hg 2
  · rw [if_neg h2]
    by_cases h1 : uid.take 1 = ['#']
    · rw [if_pos h1]
      exact good_trim_drop hg 1
    · rw [if_neg h1]
      exact hg

theorem lookupRound {s : Str}
    (hfix : clean s = s ∧ lkClean s = s ∧ tblGet UNIT_MAP s = s) :
    (if clean s = [] then [] else luF UNIT_MAP (clean s)) = s := by
  rw [hfix.1]
  by_cases h : s = []
  · rw [if_pos h, h]
  · rw [if_neg h, luF, hfix.2.1, hfix.2.2]

theorem good_tbl_fix {s : Str} (hg : goodStr s = true)
    (ht : tblGet UNIT_MAP s = s) :
    clean s = s ∧ lkClean s = s ∧ tblGet UNIT_MAP s = s :=
  ⟨(good_fix hg).1, (good_fix hg).2, ht⟩

theorem unitPair_fix {t i : Str} (hgt : goodStr t = true)
    (htt : tblGet UNIT_MAP t = t) (hgi : goodStr i = true) :
    unitPair t i = (t, i) := by
  rw [unitPair, lookupRound (good_tbl_fix hgt htt), (good_fix hgi).1]

theorem unitResolve_fixpoint {T I S J : Str}
    (FT : goodStr T = true ∧ tblGet UNIT_MAP T = T)
    (FI : goodStr I = true)
    (FS : goodStr S = true ∧ tblGet UNIT_MAP S = S)
    (FJ : goodStr J = true)
    (INV1 : T = [] ∧ I = [] → S = [] ∧ J = [])
    (INV2 : I ≠ [] → T ≠ []) :
    unitResolve T I S J [] [] = (T, I, S, J) := by
  rw [unitResolve, unitPair_fix FT.1 FT.2 FI, unitPair_fix FS.1 FS.2 FJ]
  by_cases hTI : T = [] ∧ I = []
  · obtain ⟨hS, hJ⟩ := INV1 hTI
    obtain ⟨hT, hI⟩ := hTI
    subst hT hI hS hJ
    rfl
  · have hfb : fbChain (T, I) (S, J) [] [] = (T, I) := by
      rw [fbChain, if_neg]
      intro hh
      exact hTI ⟨hh.1, hh.2.1⟩
    rw [hfb, promoteUnits, if_neg hTI, applyDefault, if_neg]
    intro hh
    exact INV2 hh.1 hh.2

theorem fbChain_props {u s0 : Str × Str} {bn ln : Str}
    (hu1 : goodStr u.1 = true ∧ tblGet UNIT_MAP u.1 = u.1)
    (hu2 : goodStr u.2 = true)
    (hbn : plainStr bn = true) (hln : plainStr ln = true) :
    goodStr (fbChain u s0 bn ln).1 = true ∧
      tblGet UNIT_MAP (fbChain u s0 bn ln).1 = (fbChain u s0 bn ln).1 ∧
      goodStr (fbChain u s0 bn ln).2 = true := by
  rw [fbChain]
  by_cases hc : u.1 = [] ∧ u.2 = [] ∧ s0.1 = [] ∧ s0.2 = []
  · rw [if_pos hc]
    cases hb : fbRecover (clean bn) with
    | some wr =>
      obtain ⟨f1, f2, -, f4⟩ := fbRecover_facts (good_clean hbn) hb
      exact ⟨f1, f2, f4⟩
    | none =>
      cases hl : fbRecover (clean ln) with
      | some wr =>
        obtain ⟨f1, f2, -, f4⟩ := fbRecover_facts (good_clean hln) hl
        exact ⟨f1, f2, f4⟩
      | none =>
        exact ⟨goodStr_nil, unit_tableGood.2, goodStr_nil⟩
  · rw [if_neg hc]
    exact ⟨hu1.1, hu1.2, hu2⟩

theorem promoteUnits_props {p s0 : Str × Str}
    (hp1 : goodStr p.1 = true ∧ tblGet UNIT_MAP p.1 = p.1)
    (hp2 : goodStr p.2 = true)
    (hs1 : goodStr s0.1 = true ∧ tblGet UNIT_MAP s0.1 = s0.1)
    (hs2 : goodStr s0.2 = true) :
    (goodStr (promoteUnits p s0).1 = true ∧
      tblGet UNIT_MAP (promoteUnits p s0).1 = (promoteUnits p s0).1) ∧
      goodStr (promoteUnits p s0).2.1 = true ∧
      (goodStr (promoteUnits p s0).2.2.1 = true ∧
        tblGet UNIT_MAP (promoteUnits p s0).2.2.1 = (promoteUnits p s0).2.2.1) ∧
      goodStr (promoteUnits p s0).2.2.2 = true ∧
      ((promoteUnits p s0).1 = [] ∧ (promoteUnits p s0).2.1 = [] →
        (promoteUnits p s0).2.2.1 = [] ∧ (promoteUnits p s0).2.2.2 = []) := by
  rw [promoteUnits]
  by_cases hc : p.1 = [] ∧ p.2 = []
  · rw [if_pos hc]
    exact ⟨hs1, hs2, ⟨goodStr_nil, unit_tableGood.2⟩, goodStr_nil,
      fun _ => ⟨rfl, rfl⟩⟩
  · rw [if_neg hc]
    exact ⟨hp1, hp2, hs1, hs2, fun hh => absurd ⟨hh.1, hh.2⟩ hc⟩

theorem applyDefault_props {q : Str × Str × Str × Str}
    (h1 : goodStr q.1 = true ∧ tblGet UNIT_MAP q.1 = q.1)
    (h2 : goodStr q.2.1 = true)
    (h3 : goodStr q.2.2.1 = true ∧ tblGet UNIT_MAP q.2.2.1 = q.2.2.1)
    (h4 : goodStr q.2.2.2 = true)
    (hinv1 : q.1 = [] ∧ q.2.1 = [] → q.2.2.1 = [] ∧ q.2.2.2 = []) :
    (goodStr (applyDefault q).1 = true ∧
      tblGet UNIT_MAP (applyDefault q).1 = (applyDefault q).1) ∧
      goodStr (applyDefault q).2.1 = true ∧
      (goodStr (applyDefault q).2.2.1 = true ∧
        tblGet UNIT_MAP (applyDefault q).2.2.1 = (applyDefault q).2.2.1) ∧
      goodStr (applyDefault q).2.2.2 = true ∧
      ((applyDefault q).1 = [] ∧ (applyDefault q).2.1 = [] →
        (applyDefault q).2.2.1 = [] ∧ (applyDefault q).2.2.2 = []) ∧
      ((applyDefault q).2.1 ≠ [] → (applyDefault q).1 ≠ []) := by
  rw [applyDefault]
  by_cases hc : q.2.1 ≠ [] ∧ q.1 = []
  · rw [if_pos hc]
    obtain ⟨d1, d2, d3, d4⟩ := defaultUnitType_facts h2
    exact ⟨⟨d1, d2⟩, d4, h3, h4, fun hh => absurd hh.1 d3, fun _ => d3⟩
  · rw [if_neg hc]
    exact ⟨h1, h2, h3, h4, hinv1, fun hne heq => hc ⟨hne, heq⟩⟩

theorem unitResolve_props {ot oi sbt sbi bn ln : Str}
    (hot : plainStr ot = true) (hoi : plainStr oi = true)
    (hst : plainStr sbt = true) (hsi : plainStr sbi = true)
    (hbn : plainStr bn = true) (hln : plainStr ln = true) :
    (goodStr (unitResolve ot oi sbt sbi bn ln).1 = true ∧
      tblGet UNIT_MAP (unitResolve ot oi sbt sbi bn ln).1 =
        (unitResolve ot oi sbt sbi bn ln).1) ∧
      goodStr (unitResolve ot oi sbt sbi bn ln).2.1 = true ∧
      (goodStr (unitResolve ot oi sbt sbi bn ln).2.2.1 = true ∧
        tblGet UNIT_MAP (unitResolve ot oi sbt sbi bn ln).2.2.1 =
          (unitResolve ot oi sbt sbi bn ln).2.2.1) ∧
      goodStr (unitResolve ot oi sbt sbi bn ln).2.2.2 = true ∧
      ((unitResolve ot oi sbt sbi bn ln).1 = [] ∧
          (unitResolve ot oi sbt sbi bn ln).2.1 = [] →
        (unitResolve ot oi sbt sbi bn ln).2.2.1 = [] ∧
          (unitResolve ot oi sbt sbi bn ln).2.2.2 = []) ∧
      ((unitResolve ot oi sbt sbi bn ln).2.1 ≠ [] →
        (unitResolve ot oi sbt sbi bn ln).1 ≠ []) := by
  have hTR := typeRound hot
  have hSR := typeRound hst
  have hfb := @fbChain_props (unitPair ot oi) (unitPair sbt sbi) bn ln
    ⟨hTR.1, hTR.2⟩ (good_clean hoi) hbn hln
  have hpr := @promoteUnits_props
    (fbChain (unitPair ot oi) (unitPair sbt sbi) bn ln) (unitPair sbt sbi)
    ⟨hfb.1, hfb.2.1⟩ hfb.2.2 ⟨hSR.1, hSR.2⟩ (good_clean hsi)
  have had := applyDefault_props ⟨hpr.1.1, hpr.1.2⟩ hpr.2.1
    ⟨hpr.2.2.1.1, hpr.2.2.1.2⟩ hpr.2.2.2.1 hpr.2.2.2.2
  simp only [unitResolve]
  exact had

theorem unitResolve_idem {ot oi sbt sbi bn ln : Str}
    (hot : plainStr ot = true) (hoi : plainStr oi = true)
    (hst : plainStr sbt = true) (hsi : plainStr sbi = true)
    (hbn : plainStr bn = true) (hln : plainStr ln = true) :
    unitResolve (unitResolve ot oi sbt sbi bn ln).1
      (unitResolve ot oi sbt sbi bn ln).2.1
      (unitResolve ot oi sbt sbi bn ln).2.2.1
      (unitResolve ot oi sbt sbi bn ln).2.2.2 [] [] =
      unitResolve ot oi sbt sbi bn ln := by
  obtain ⟨f1, f2, f3, f4, f5, f6⟩ := unitResolve_props hot hoi hst hsi hbn hln
  rw [unitResolve_fixpoint f1 f2 f3 f4 f5 f6]

/-! ## Field projections of the standardized component map -/

theorem sc_address_number (c : ComponentMap) :
    (stdComponents c).address_number =
      clean c.address_number := by
  simp only [stdComponents]

theorem sc_address_number_pre (c : ComponentMap) :
    (stdComponents c).address_number_pre =
      clean c.address_number_pre := by
  simp only [stdComponents]

theorem sc_address_number_suffix (c : ComponentMap) :
    (stdComponents c).address_number_suffix =
      clean c.address_number_suffix := by
  simp only [stdComponents]

theorem sc_street_name_pre_modifier (c : ComponentMap) :
    (stdComponents c).street_name_pre_modifier =
      clean c.street_name_pre_modifier := by
  simp only [stdComponents]

theorem sc_street_name (c : ComponentMap) :
    (stdComponents c).street_name =
      clean c.street_name := by
  simp only [stdComponents]

theorem sc_street_name_post_modifier (c : ComponentMap) :
    (stdComponents c).street_name_post_modifier =
      clean c.street_name_post_modifier := by
  simp only [stdComponents]

theorem sc_second_street_name_pre_modifier (c : ComponentMap) :
    (stdComponents c).second_street_name_pre_modifier =
      clean c.second_street_name_pre_modifier := by
  simp only [stdComponents]

theorem sc_second_street_name (c : ComponentMap) :
    (stdComponents c).second_street_name =
      clean c.second_street_name := by
  simp only [stdComponents]

theorem sc_second_street_name_post_modifier (c : ComponentMap) :
    (stdComponents c).second_street_name_post_modifier =
      clean c.second_street_name_post_modifier := by
  simp only [stdComponents]

theorem sc_city (c : ComponentMap) :
    (stdComponents c).city =
      clean c.city := by
  simp only [stdComponents]

theorem sc_usps_box_type (c : ComponentMap) :
    (stdComponents c).usps_box_type =
      clean c.usps_box_type := by
  simp only [stdComponents]

theorem sc_usps_box_id (c : ComponentMap) :
    (stdComponents c).usps_box_id =
      clean c.usps_box_id := by
  simp only [stdComponents]

theorem sc_street_name_pre_directional (c : ComponentMap) :
    (stdComponents c).street_name_pre_directional =
      (if clean c.street_name_pre_directional = [] then []
       else luF DIRECTIONAL_MAP (clean c.street_name_pre_directional)) := by
  simp only [stdComponents]

theorem sc_street_name_post_directional (c : ComponentMap) :
    (stdComponents c).street_name_post_directional =
      (if clean c.street_name_post_directional = [] then []
       else luF DIRECTIONAL_MAP (clean c.street_name_post_directional)) := by
  simp only [stdComponents]

theorem sc_second_street_name_pre_directional (c : ComponentMap) :
    (stdComponents c).second_street_name_pre_directional =
      (if clean c.second_street_name_pre_directional = [] then []
       else luF DIRECTIONAL_MAP (clean c.second_street_name_pre_directional)) := by
  simp only [stdComponents]

theorem sc_second_street_name_post_directional (c : ComponentMap) :
    (stdComponents c).second_street_name_post_directional =
      (if clean c.second_street_name_post_directional = [] then []
       else luF DIRECTIONAL_MAP (clean c.second_street_name_post_directional)) := by
  simp only [stdComponents]

theorem sc_street_name_pre_type (c : ComponentMap) :
    (stdComponents c).street_name_pre_type =
      (if clean c.street_name_pre_type = [] then []
       else luF SUFFIX_MAP (clean c.street_name_pre_type)) := by
  simp only [stdComponents]

theorem sc_street_name_post_type (c : ComponentMap) :
    (stdComponents c).street_name_post_type =
      (if clean c.street_name_post_type = [] then []
       else luF SUFFIX_MAP (clean c.street_name_post_type)) := by
  simp only [stdComponents]

theorem sc_second_street_name_pre_type (c : ComponentMap) :
    (stdComponents c).second_street_name_pre_type =
      (if clean c.second_street_name_pre_type = [] then []
       else luF SUFFIX_MAP (clean c.second_street_name_pre_type)) := by
  simp only [stdComponents]

theorem sc_second_street_name_post_type (c : ComponentMap) :
    (stdComponents c).second_street_name_post_type =
      (if clean c.second_street_name_post_type = [] then []
       else luF SUFFIX_MAP (clean c.second_street_name_post_type)) := by
  simp only [stdComponents]

theorem sc_state (c : ComponentMap) :
    (stdComponents c).state =
      (if clean c.state = [] then []
       else luF STATE_MAP (clean c.state)) := by
  simp only [stdComponents]

theorem sc_zip_code (c : ComponentMap) :
    (stdComponents c).zip_code =
      (if clean c.zip_code = [] then []
       else stdZip (clean c.zip_code)) := by
  simp only [stdComponents]

theorem sc_occupancy_type (c : ComponentMap) :
    (stdComponents c).occupancy_type =
      (unitResolve c.occupancy_type c.occupancy_identifier c.subaddress_type
        c.subaddress_identifier c.building_name c.landmark_name).1 := by
  simp only [stdComponents]

theorem sc_occupancy_identifier (c : ComponentMap) :
    (stdComponents c).occupancy_identifier =
      (unitResolve c.occupancy_type c.occupancy_identifier c.subaddress_type
        c.subaddress_identifier c.building_name c.landmark_name).2.1 := by
  simp only [stdComponents]

theorem sc_subaddress_type (c : ComponentMap) :
    (stdComponents c).subaddress_type =
      (unitResolve c.occupancy_type c.occupancy_identifier c.subaddress_type
        c.subaddress_identifier c.building_name c.landmark_name).2.2.1 := by
  simp only [stdComponents]

theorem sc_subaddress_identifier (c : ComponentMap) :
    (stdComponents c).subaddress_identifier =
      (unitResolve c.occupancy_type c.occupancy_identifier c.subaddress_type
        c.subaddress_identifier c.building_name c.landmark_name).2.2.2 := by
  simp only [stdComponents]

theorem sc_building_name (c : ComponentMap) :
    (stdComponents c).building_name =
      [] := by
  simp only [stdComponents]

theorem sc_landmark_name (c : ComponentMap) :
    (stdComponents c).landmark_name =
      [] := by
  simp only [stdComponents]

/-! ## Idempotence of the standardizer on plain component maps -/

theorem cm_ext {a b : ComponentMap}
    (h01 : a.address_number = b.address_number)
    (h02 : a.address_number_pre = b.address_number_pre)
    (h03 : a.address_number_suffix = b.address_number_suffix)
    (h04 : a.street_name_pre_directional = b.street_name_pre_directional)
    (h05 : a.street_name_pre_modifier = b.street_name_pre_modifier)
    (h06 : a.street_name_pre_type = b.street_name_pre_type)
    (h07 : a.street_name = b.street_name)
    (h08 : a.street_name_post_type = b.street_name_post_type)
    (h09 : a.street_name_post_directional = b.street_name_post_directional)
    (h10 : a.street_name_post_modifier = b.street_name_post_modifier)
    (h11 : a.second_street_name_pre_directional =
      b.second_street_name_pre_directional)
    (h12 : a.second_street_name_pre_modifier = b.second_street_name_pre_modifier)
    (h13 : a.second_street_name_pre_type = b.second_street_name_pre_type)
    (h14 : a.second_street_name = b.second_street_name)
    (h15 : a.second_street_name_post_type = b.second_street_name_post_type)
    (h16 : a.second_street_name_post_directional =
      b.second_street_name_post_directional)
    (h17 : a.second_street_name_post_modifier =
      b.second_street_name_post_modifier)
    (h18 : a.occupancy_type = b.occupancy_type)
    (h19 : a.occupancy_identifier = b.occupancy_identifier)
    (h20 : a.subaddress_type = b.subaddress_type)
    (h21 : a.subaddress_identifier = b.subaddress_identifier)
    (h22 : a.building_name = b.building_name)
    (h23 : a.landmark_name = b.landmark_name)
    (h24 : a.city = b.city)
    (h25 : a.state = b.state)
    (h26 : a.zip_code = b.zip_code)
    (h27 : a.usps_box_type = b.usps_box_type)
    (h28 : a.usps_box_id = b.usps_box_id) : a = b := by
  cases a
  cases b
  simp_all

set_option maxHeartbeats 1000000 in
theorem stdComponents_idem {c : ComponentMap} (hc : plainCM c = true) :
    stdComponents (stdComponents c) = stdComponents c := by
  simp only [plainCM, cmValues, List.all_cons, List.all_nil, Bool.and_eq_true,
    Bool.and_true] at hc
  obtain ⟨p01, p02, p03, p04, p05, p06, p07, p08, p09, p10, p11, p12, p13,
    p14, p15, p16, p17, p18, p19, p20, p21, p22, p23, p24, p25, p26, p27,
    p28⟩ := hc
  have hu := unitResolve_idem p18 p19 p20 p21 p22 p23
  apply cm_ext
  · rw [sc_address_number (stdComponents c), sc_address_number c]
    exact clean_idem p01
  · rw [sc_address_number_pre (stdComponents c), sc_address_number_pre c]
    exact clean_idem p02
  · rw [sc_address_number_suffix (stdComponents c), sc_address_number_suffix c]
    exact clean_idem p03
  · rw [sc_street_name_pre_directional (stdComponents c), sc_street_name_pre_directional c]
    exact lookup_idem dir_tableGood p04
  · rw [sc_street_name_pre_modifier (stdComponents c), sc_street_name_pre_modifier c]
    exact clean_idem p05
  · rw [sc_street_name_pre_type (stdComponents c), sc_street_name_pre_type c]
    exact lookup_idem suffix_tableGood p06
  · rw [sc_street_name (stdComponents c), sc_street_name c]
    exact clean_idem p07
  · rw [sc_street_name_post_type (stdComponents c), sc_street_name_post_type c]
    exact lookup_idem suffix_tableGood p08
  · rw [sc_street_name_post_directional (stdComponents c), sc_street_name_post_directional c]
    exact lookup_idem dir_tableGood p09
  · rw [sc_street_name_post_modifier (stdComponents c), sc_street_name_post_modifier c]
    exact clean_idem p10
  · rw [sc_second_street_name_pre_directional (stdComponents c), sc_second_street_name_pre_directional c]
    exact lookup_idem dir_tableGood p11
  · rw [sc_second_street_name_pre_modifier (stdComponents c), sc_second_street_name_pre_modifier c]
    exact clean_idem p12
  · rw [sc_second_street_name_pre_type (stdComponents c), sc_second_street_name_pre_type c]
    exact lookup_idem suffix_tableGood p13
  · rw [sc_second_street_name (stdComponents c), sc_second_street_name c]
    exact clean_idem p14
  · rw [sc_second_street_name_post_type (stdComponents c), sc_second_street_name_post_type c]
    exact lookup_idem suffix_tableGood p15
  · rw [sc_second_street_name_post_directional (stdComponents c), sc_second_street_name_post_directional c]
    exact lookup_idem dir_tableGood p16
  · rw [sc_second_street_name_post_modifier (stdComponents c), sc_second_street_name_post_modifier c]
    exact clean_idem p17
  · rw [sc_occupancy_type (stdComponents c)]
    rw [sc_occupancy_type c, sc_occupancy_identifier c,
      sc_subaddress_type c, sc_subaddress_identifier c,
      sc_building_name c, sc_landmark_name c]
    exact congrArg (fun x => x.1) hu
  · rw [sc_occupancy_identifier (stdComponents c)]
    rw [sc_occupancy_type c, sc_occupancy_identifier c,
      sc_subaddress_type c, sc_subaddress_identifier c,
      sc_building_name c, sc_landmark_name c]
    exact congrArg (fun x => x.2.1) hu
  · rw [sc_subaddress_type (stdComponents c)]
    rw [sc_occupancy_type c, sc_occupancy_identifier c,
      sc_subaddress_type c, sc_subaddress_identifier c,
      sc_building_name c, sc_landmark_name c]
    exact congrArg (fun x => x.2.2.1) hu
  · rw [sc_subaddress_identifier (stdComponents c)]
    rw [sc_occupancy_type c, sc_occupancy_identifier c,
      sc_subaddress_type c, sc_subaddress_identifier c,
      sc_building_name c, sc_landmark_name c]
    exact congrArg (fun x => x.2.2.2) hu
  · rw [sc_building_name (stdComponents c), sc_building_name c]
  · rw [sc_landmark_name (stdComponents c), sc_landmark_name c]
  · rw [sc_city (stdComponents c), sc_city c]
    exact clean_idem p24
  · rw [sc_state (stdComponents c), sc_state c]
    exact lookup_idem state_tableGood p25
  · rw [sc_zip_code (stdComponents c), sc_zip_code c]
    exact zipField_idem p26
  · rw [sc_usps_box_type (stdComponents c), sc_usps_box_type c]
    exact clean_idem p27
  · rw [sc_usps_box_id (stdComponents c), sc_usps_box_id c]
    exact clean_idem p28

theorem standardize_components (c : ComponentMap) :
    (standardize c).components = stdComponents c := rfl

/-- C1 (counterexample): standardizing twice is not stable for every
ComponentMap.  For `street_name = "A ,"` the first pass strips the
trailing comma and exposes a trailing space (`"A "`), which the second
pass then trims, so the street_name field changes on
re-standardization. -/
theorem c1_counterexample :
    (standardize (standardize
        { emptyCM with street_name := str "A ," }).components).components ≠
      (standardize { emptyCM with street_name := str "A ," }).components := by
  decide

/-- C1 (amended): standardizing twice is stable for every ComponentMap
whose values contain no comma, semicolon, period, or parenthesis
characters: `standardize(standardize(x).components).components`
equals `standardize(x).components` for every such `x`.  (On arbitrary
values the cleanup chain can expose new surrounding whitespace or
punctuation, as the counterexample shows.) -/
theorem c1_standardize_idem (c : ComponentMap) (hc : plainCM c = true) :
    (standardize (standardize c).components).components =
      (standardize c).components := by
  rw [standardize_components c, standardize_components (stdComponents c)]
  exact stdComponents_idem hc

/-- C1 witness: a concrete plain component map on which the amended
idempotence theorem applies. -/
theorem c1_standardize_idem_witness :
    plainCM { emptyCM with
      street_name := str "MAIN"
      street_name_post_type := str "STREET"
      occupancy_identifier := str "# 4B"
      city := str "seattle"
      state := str "WASHINGTON"
      zip_code := str "981014567" } = true ∧
    (standardize (standardize { emptyCM with
      street_name := str "MAIN"
      street_name_post_type := str "STREET"
      occupancy_identifier := str "# 4B"
      city := str "seattle"
      state := str "WASHINGTON"
      zip_code := str "981014567" }).components).components =
    (standardize { emptyCM with
      street_name := str "MAIN"
      street_name_post_type := str "STREET"
      occupancy_identifier := str "# 4B"
      city := str "seattle"
      state := str "WASHINGTON"
      zip_code := str "981014567" }).components :=
  ⟨by decide, c1_standardize_idem _ (by decide)⟩

/-! ## Claim C8: ZIP normalization -/

theorem standardize_zip (c : ComponentMap) :
    (standardize c).zip_code = (stdComponents c).zip_code := rfl

/-- C8: for every input string the standardized ZIP is computed by
removing all non-digit characters and then: with at least 9 digits,
the first five digits, a hyphen, and digits six through nine (all
further digits discarded); with at least 5 digits, the first five
digits; otherwise the raw digit string itself, possibly empty.  In
particular "98101" gives "98101", "981014567" gives "98101-4567",
"981" gives "981", and "" gives "".  The `zip_code` output of
`standardize` is this normalization of the cleaned input field. -/
theorem c8_zip_normalization :
    (∀ c : ComponentMap, (standardize c).zip_code =
      (if clean c.zip_code = [] then [] else stdZip (clean c.zip_code))) ∧
    (∀ raw : Str, stdZip raw =
      (if 9 ≤ (raw.filter (fun ch => ch.isDigit)).length then
        (raw.filter (fun ch => ch.isDigit)).take 5 ++ ['-'] ++
          ((raw.filter (fun ch => ch.isDigit)).take 9).drop 5
       else if 5 ≤ (raw.filter (fun ch => ch.isDigit)).length then
        (raw.filter (fun ch => ch.isDigit)).take 5
       else raw.filter (fun ch => ch.isDigit))) ∧
    stdZip (str "98101") = str "98101" ∧
    stdZip (str "981014567") = str "98101-4567" ∧
    stdZip (str "981") = str "981" ∧
    stdZip (str "") = str "" := by
  refine ⟨?_, ?_, by decide, by decide, by decide, by decide⟩
  · intro c
    rw [standardize_zip, sc_zip_code]
  · intro raw
    simp only [stdZip]
    by_cases h9 : (raw.filter (fun ch => ch.isDigit)).length ≥ 9
    · rw [if_pos h9, if_pos h9, ← List.take_drop 5 4]
      simp [List.append_assoc]
    · rw [if_neg h9, if_neg h9]

/-! ## Claim C2: line-1 assembly -/

theorem standardize_line1 (c : ComponentMap) :
    (standardize c).address_line_1 = line1Of (stdComponents c) := by
  simp only [standardize]

/-- C2 (counterexample): a literal "&" and the second street's tokens
are not appended whenever the second-street token sequence is
non-empty: with `address_number = "5"` and `second_street_name =
"MAIN"` (no primary street tokens) line 1 is just "5", not
"5 & MAIN". -/
theorem c2_counterexample :
    secondStreetTokens (stdComponents
        { emptyCM with
          address_number := str "5"
          second_street_name := str "MAIN" }) ≠ [] ∧
    (standardize { emptyCM with
        address_number := str "5"
        second_street_name := str "MAIN" }).address_line_1 = str "5" ∧
    (standardize { emptyCM with
        address_number := str "5"
        second_street_name := str "MAIN" }).address_line_1 ≠
      joinSp (numberTokens (stdComponents
          { emptyCM with
            address_number := str "5"
            second_street_name := str "MAIN" }) ++
        streetTokens (stdComponents
          { emptyCM with
            address_number := str "5"
            second_street_name := str "MAIN" }) ++
        [str "&"] ++
        secondStreetTokens (stdComponents
          { emptyCM with
            address_number := str "5"
            second_street_name := str "MAIN" })) := by
  refine ⟨by decide, by decide, by decide⟩

/-- C2 (amended): for every ComponentMap, standardize's address line 1
is the space-joined sequence number-prefix, number, number-suffix
followed by the primary street tokens in the order pre-directional,
pre-modifier, pre-type, name, post-type, post-directional,
post-modifier (empty tokens omitted); when BOTH the primary and the
second-street token sequences are non-empty, a literal "&" and the
second street's tokens are appended; if there are no primary street
tokens and no number but a PO-Box type or id exists, line 1 is the box
type and id instead; in particular, first-street tokens ["MAIN","ST"]
and second-street tokens ["1ST","AVE"] with no address number give
line 1 = "MAIN ST & 1ST AVE". -/
theorem c2_line1_assembly :
    (∀ c : ComponentMap,
      (standardize c).address_line_1 =
        (let s := stdComponents c
         let nums := [s.address_number_pre, s.address_number,
           s.address_number_suffix].filter (fun x => x ≠ [])
         let fs := [s.street_name_pre_directional, s.street_name_pre_modifier,
           s.street_name_pre_type, s.street_name, s.street_name_post_type,
           s.street_name_post_directional,
           s.street_name_post_modifier].filter (fun x => x ≠ [])
         let ss := [s.second_street_name_pre_directional,
           s.second_street_name_pre_modifier, s.second_street_name_pre_type,
           s.second_street_name, s.second_street_name_post_type,
           s.second_street_name_post_directional,
           s.second_street_name_post_modifier].filter (fun x => x ≠ [])
         if fs ≠ [] ∧ ss ≠ [] then joinSp (nums ++ fs ++ [str "&"] ++ ss)
         else if fs ≠ [] ∨ nums ≠ [] then joinSp (nums ++ fs)
         else if s.usps_box_type ≠ [] ∨ s.usps_box_id ≠ [] then
           joinSp ([s.usps_box_type, s.usps_box_id].filter (fun x => x ≠ []))
         else [])) ∧
    (standardize { emptyCM with
        street_name := str "MAIN"
        street_name_post_type := str "ST"
        second_street_name := str "1ST"
        second_street_name_post_type := str "AVE" }).address_line_1 =
      str "MAIN ST & 1ST AVE" := by
  refine ⟨?_, by decide⟩
  intro c
  rw [standardize_line1]
  simp only [line1Of, numberTokens, streetTokens, secondStreetTokens]

/-! ## Claim C9: termination and totality -/

/-- C9: the phase-1 city-recovery loop terminates on every input
because each continuing iteration strictly shortens the city value
(the post-comma remainder is strictly shorter than the city it came
from), and the recovery pipeline and standardize are total functions
returning a result value on every component-map input. -/
theorem c9_termination :
    (∀ city : Str, ',' ∈ city →
      (trimWs ((city.dropWhile (fun ch => ch ≠ ',')).drop 1)).length <
        city.length) ∧
    (∀ m : ComponentMap, ∃ r : ComponentMap,
      recoverIdentFragment (recoverUnitFromCity m) = r) ∧
    (∀ c : ComponentMap, ∃ r : StandardizeResponse, standardize c = r) := by
  refine ⟨?_, fun m => ⟨_, rfl⟩, fun c => ⟨_, rfl⟩⟩
  intro city h
  have h1 : city.dropWhile (fun ch => ch ≠ ',') ≠ [] := by
    intro hnil
    rw [List.dropWhile_eq_nil_iff] at hnil
    have := hnil ',' h
    simp at this
  have h2 : ((city.dropWhile (fun ch => ch ≠ ',')).drop 1).length <
      city.length := by
    have hle := (List.dropWhile_sublist (l := city) (fun ch => ch ≠ ',')).length_le
    have hpos : 0 < (city.dropWhile (fun ch => ch ≠ ',')).length :=
      List.length_pos.mpr h1
    simp only [List.length_drop]
    omega
  calc (trimWs ((city.dropWhile (fun ch => ch ≠ ',')).drop 1)).length
      ≤ ((city.dropWhile (fun ch => ch ≠ ',')).drop 1).length := by
        simp only [trimWs, trimR, trimL, List.length_reverse]
        calc ((((city.dropWhile (fun ch => ch ≠ ',')).drop 1).dropWhile
                (fun c => c.isWhitespace)).reverse.dropWhile
                (fun c => c.isWhitespace)).length
            ≤ (((city.dropWhile (fun ch => ch ≠ ',')).drop 1).dropWhile
                (fun c => c.isWhitespace)).reverse.length :=
              (List.dropWhile_sublist _).length_le
          _ ≤ ((city.dropWhile (fun ch => ch ≠ ',')).drop 1).length := by
              rw [List.length_reverse]
              exact (List.dropWhile_sublist _).length_le
    _ < city.length := h2

/-- C9 witness: the strict decrease and totality at concrete inputs. -/
theorem c9_termination_witness :
    (',' ∈ str "A,B") ∧
    (trimWs (((str "A,B").dropWhile (fun ch => ch ≠ ',')).drop 1)).length <
      (str "A,B").length ∧
    ∃ r : StandardizeResponse, standardize emptyCM = r :=
  ⟨by decide, c9_termination.1 (str "A,B") (by decide),
    c9_termination.2.2 emptyCM⟩

/-! ## Claim C5: identifier-fragment recovery -/

/-- C5 (counterexample): the recovery is not an "if and only if" on
the three stated conditions.  For `city = "A  "` (letter, space,
space) with `occupancy_identifier = "1"` the city is at least 3
characters, starts with one letter followed by a space, and an
identifier is non-empty, yet the function changes nothing because the
remainder after the two-character prefix is all whitespace. -/
theorem c5_counterexample :
    3 ≤ (str "A  ").length ∧ ('A'.isAlpha = true) ∧
    (str "A  ").get? 1 = some ' ' ∧ (str "1" : Str) ≠ [] ∧
    recoverIdentFragment { emptyCM with
      city := str "A  "
      occupancy_identifier := str "1" } =
      { emptyCM with
        city := str "A  "
        occupancy_identifier := str "1" } := by
  refine ⟨by decide, by decide, by decide, by decide, by decide⟩

/-- C5 (amended): identifier fragment recovery changes the map if and
only if city is at least 3 characters long, starts with exactly one
letter followed by a space, at least one identifier is non-empty, AND
the remainder of city after the two-character prefix is non-empty
once surrounding whitespace is stripped; in that case the leading
letter is appended (space-joined) to the first non-empty identifier
(occupancy before subaddress) and city becomes that stripped
remainder; otherwise no field changes. -/
theorem c5_fragment_recovery (m : ComponentMap) :
    recoverIdentFragment m =
      (if 3 ≤ m.city.length ∧ (m.city.take 1).all (fun ch => ch.isAlpha) = true ∧
          m.city.get? 1 = some ' ' ∧ trimWs (m.city.drop 2) ≠ [] ∧
          (m.occupancy_identifier ≠ [] ∨ m.subaddress_identifier ≠ [])
       then
         (if m.occupancy_identifier ≠ [] then
           { m with
             occupancy_identifier :=
               m.occupancy_identifier ++ str " " ++ m.city.take 1
             city := trimWs (m.city.drop 2) }
          else
           { m with
             subaddress_identifier :=
               m.subaddress_identifier ++ str " " ++ m.city.take 1
             city := trimWs (m.city.drop 2) })
       else m) := by
  rcases hcity : m.city with - | ⟨a, - | ⟨b, tail⟩⟩
  · rw [recoverIdentFragment, hcity]
    rw [if_pos (by decide), if_neg]
    intro hh
    simp at hh
  · rw [recoverIdentFragment, hcity]
    rw [if_pos (by simp), if_neg]
    intro hh
    simp at hh
  · rw [recoverIdentFragment, hcity]
    simp only [hcity]
    by_cases htail : tail = []
    · subst htail
      rw [if_pos (by simp), if_neg]
      intro hh
      simp at hh
    · have htl := List.length_pos.mpr htail
      rw [if_neg (by simp only [List.length_cons]; omega)]
      have htake : List.take 1 (a :: b :: tail) = [a] := rfl
      have hget : (a :: b :: tail).get? 1 = some b := rfl
      have hdrop : List.drop 2 (a :: b :: tail) = tail := rfl
      rw [htake, hget, hdrop]
      by_cases hguard : ¬ a.isAlpha = true ∨ b ≠ ' '
      · rw [if_pos hguard, if_neg]
        intro hh
        rcases hguard with hg | hg
        · exact hg (by simpa using hh.2.1)
        · exact hg (by simpa using hh.2.2.1)
      · push_neg at hguard
        obtain ⟨ha, hb⟩ := hguard
        subst hb
        by_cases hrest : trimWs tail = []
        · rw [if_neg (by simp [ha]), if_pos hrest, if_neg]
          intro hh
          exact absurd hh.2.2.2.1 (by simpa using hrest)
        · rw [if_neg (by simp [ha]), if_neg hrest]
          have hstr : (str " " : Str) = [' '] := rfl
          by_cases hocc : m.occupancy_identifier ≠ []
          · rw [if_pos hocc,
              if_pos ⟨by simp only [List.length_cons]; omega, by simp [ha],
                rfl, by simpa using hrest, Or.inl hocc⟩,
              if_pos hocc, hstr, List.append_assoc]
            rfl
          · rw [if_neg hocc]
            by_cases hsub : m.subaddress_identifier ≠ []
            · rw [if_pos hsub,
                if_pos ⟨by simp only [List.length_cons]; omega, by simp [ha],
                  rfl, by simpa using hrest, Or.inr hsub⟩,
                if_neg hocc, hstr, List.append_assoc]
              rfl
            · rw [if_neg hsub, if_neg]
              intro hh
              rcases hh.2.2.2.2 with h | h
              · exact hocc h
              · exact hsub h

/-! ## Claim C7: secondary-unit typing -/

/-- C7 (counterexample): the typing chain is not an exclusive
if/else-if on the leading "#": after stripping a leading "#" token
the code STILL splits a leading designator word out of the remaining
identifier.  For `occupancy_identifier = "# STE 3"` with no type the
result is `occupancy_type = "STE"`, `occupancy_identifier = "3"`,
not the chain-as-stated result `occupancy_type = "#"`,
`occupancy_identifier = "STE 3"`. -/
theorem c7_counterexample :
    (stdComponents { emptyCM with
        occupancy_identifier := str "# STE 3" }).occupancy_type = str "STE" ∧
    (stdComponents { emptyCM with
        occupancy_identifier := str "# STE 3" }).occupancy_identifier =
      str "3" ∧
    str "STE" ≠ str "#" ∧ str "3" ≠ str "STE 3" := by
  refine ⟨by decide, by decide, by decide, by decide⟩

/-- C7 (amended): whenever, after cleanup/promotion, a unit identifier
exists with no unit type, the result follows this chain: a leading
"#" token is stripped from the identifier if present; then,
regardless, if the leading word of the (possibly stripped) identifier
is a known unit designator it is split out as the type; otherwise the
type defaults to the literal "#".  In particular occupancy_identifier
"# 4B" with no type standardizes to occupancy_type "#" and
occupancy_identifier "4B". -/
theorem c7_default_unit_type :
    (∀ uid : Str,
      defaultUnitType uid =
        (let id1 := if uid.take 2 = str "# " then trimWs (uid.drop 2)
           else if uid.take 1 = str "#" then trimWs (uid.drop 1) else uid
         match splitFirstWord id1 with
         | some wr =>
           if isKey UNIT_MAP wr.1 = true then (tblGet UNIT_MAP wr.1, wr.2)
           else (str "#", id1)
         | none => (str "#", id1))) ∧
    (stdComponents { emptyCM with
        occupancy_identifier := str "# 4B" }).occupancy_type = str "#" ∧
    (stdComponents { emptyCM with
        occupancy_identifier := str "# 4B" }).occupancy_identifier =
      str "4B" := by
  refine ⟨?_, by decide, by decide⟩
  intro uid
  have key : ∀ x : Str, defaultSplit x =
      (match splitFirstWord x with
       | some wr =>
         if isKey UNIT_MAP wr.1 = true then (tblGet UNIT_MAP wr.1, wr.2)
         else (str "#", x)
       | none => (str "#", x)) := by
    intro x
    cases hsp : splitFirstWord x with
    | none => simp only [defaultSplit, hsp]
    | some wr =>
      cases hf : UNIT_MAP.find? (fun p => p.1 == wr.1) with
      | none =>
        have htv : tblVal UNIT_MAP wr.1 = none := by
          rw [tblVal, hf]
          rfl
        have hik : isKey UNIT_MAP wr.1 = false := by
          rw [isKey, hf]
          rfl
        simp only [defaultSplit, hsp, htv, hik]
        rw [if_neg]
        simp
      | some p =>
        have htv : tblVal UNIT_MAP wr.1 = some p.2 := by
          rw [tblVal, hf]
          rfl
        have hik : isKey UNIT_MAP wr.1 = true := by
          rw [isKey, hf]
          rfl
        have hg : tblGet UNIT_MAP wr.1 = p.2 := by rw [tblGet, hf]
        simp only [defaultSplit, hsp, htv, hik, hg]
        rw [if_pos trivial]
  have h2 : (str "# " : Str) = ['#', ' '] := rfl
  have h1 : (str "#" : Str) = ['#'] := rfl
  rw [defaultUnitType, key, h2, h1]

/-! ## Claims C6 and C10: ambiguity recovery -/

/-- C6: for the token/label stream [("1804", AddressNumber),
("&", IntersectionSeparator), ("1810", AddressNumber)] the recovered
components map address_number to "1804-1810" (hyphen-joined by the
dual-address rule), contain no intersection_separator key, and the
result has type Ambiguous with the fixed advisory warning; more
generally, on a token whose adapted key already exists in the output
map and which is not a deferred separator, the new token is appended
with a hyphen when the key is address_number and the
pending-dual-separator flag is set, and with a single space for any
other repeated key. -/
theorem c6_dual_address :
    ((parseAmbiguous (str "1804 & 1810")
        [(str "1804", str "AddressNumber"),
         (str "&", str "IntersectionSeparator"),
         (str "1810", str "AddressNumber")]).components =
      [(str "address_number", str "1804-1810")] ∧
     hasKey (parseAmbiguous (str "1804 & 1810")
        [(str "1804", str "AddressNumber"),
         (str "&", str "IntersectionSeparator"),
         (str "1810", str "AddressNumber")]).components
        (str "intersection_separator") = false ∧
     (parseAmbiguous (str "1804 & 1810")
        [(str "1804", str "AddressNumber"),
         (str "&", str "IntersectionSeparator"),
         (str "1810", str "AddressNumber")]).rType = str "Ambiguous" ∧
     (parseAmbiguous (str "1804 & 1810")
        [(str "1804", str "AddressNumber"),
         (str "&", str "IntersectionSeparator"),
         (str "1810", str "AddressNumber")]).warning =
       some (str "Repeated labels detected; parse may be inaccurate.")) ∧
    (∀ (stt : RecState) (tok lbl : Str),
      ¬(tagAdapt lbl = str "intersection_separator" ∧
          stt.prev = some (str "address_number")) →
      hasKey stt.comps (tagAdapt lbl) = true →
      (recStep stt (tok, lbl)).comps =
        stt.comps.map (fun p =>
          if p.1 = tagAdapt lbl then
            (p.1, p.2 ++
              (if tagAdapt lbl = str "address_number" ∧ stt.sep = true
               then str "-" ++ tok else str " " ++ tok))
          else p)) := by
  refine ⟨⟨by decide, by decide, by decide, by decide⟩, ?_⟩
  intro stt tok lbl hng hk
  simp only [recStep]
  rw [if_neg hng, if_pos hk]
  rw [appendAt]
  refine List.map_congr_left ?_
  intro p hp
  by_cases hpk : p.1 = tagAdapt lbl
  · rw [if_pos (beq_iff_eq.mpr hpk), if_pos hpk]
    by_cases hd : tagAdapt lbl = str "address_number" ∧ stt.sep = true
    · rw [if_pos hd, if_pos hd]
      rfl
    · rw [if_neg hd, if_neg hd]
      rfl
  · rw [if_neg (by simpa using hpk), if_neg hpk]

/-- C6 witness: the repeated-key append rule applied at a concrete
state: a repeated `city` token is appended with a single space. -/
theorem c6_dual_address_witness :
    (recStep ⟨[(str "city", str "WALLA")], some (str "city"), false⟩
      (str "WALLA", str "PlaceName")).comps =
      [(str "city", str "WALLA WALLA")] := by
  have h := c6_dual_address.2
    ⟨[(str "city", str "WALLA")], some (str "city"), false⟩
    (str "WALLA") (str "PlaceName") (by decide) (by decide)
  rw [h]
  decide

/-- C10: an intersection_separator token that immediately follows an
address_number token is deferred: the step leaves the output map
unchanged, only setting the pending flag and the previous key, so the
rest of the stream is processed from that state — the deferred token
is never emitted (in the concrete stream number, separator,
street_name no value contains "&"); an intersection_separator not
preceded by address_number is stored or appended like any other
token. -/
theorem c10_separator_deferral :
    (∀ (comps : List (Str × Str)) (sp : Bool) (tok : Str)
        (rest : List (Str × Str)),
      runRec ⟨comps, some (str "address_number"), sp⟩
          ((tok, str "IntersectionSeparator") :: rest) =
        runRec ⟨comps, some (str "intersection_separator"), true⟩ rest) ∧
    ((runRec ⟨[], none, false⟩
        [(str "10", str "AddressNumber"),
         (str "&", str "IntersectionSeparator"),
         (str "MAIN", str "StreetName")]).comps =
      [(str "address_number", str "10"), (str "street_name", str "MAIN")] ∧
     ((runRec ⟨[], none, false⟩
        [(str "10", str "AddressNumber"),
         (str "&", str "IntersectionSeparator"),
         (str "MAIN", str "StreetName")]).comps.all
        (fun p => !(p.2.contains '&'))) = true) ∧
    (∀ (stt : RecState) (tok : Str),
      stt.prev ≠ some (str "address_number") →
      recStep stt (tok, str "IntersectionSeparator") =
        ⟨(if hasKey stt.comps (str "intersection_separator") = true then
            appendAt stt.comps (str "intersection_separator") (' ' :: tok)
          else stt.comps ++ [(str "intersection_separator", tok)]),
         some (str "intersection_separator"), false⟩) := by
  have hTag : tagAdapt (str "IntersectionSeparator") =
      str "intersection_separator" := by decide
  refine ⟨?_, ⟨by decide, by decide⟩, ?_⟩
  · intro comps sp tok rest
    have hstep : recStep ⟨comps, some (str "address_number"), sp⟩
        (tok, str "IntersectionSeparator") =
        ⟨comps, some (str "intersection_separator"), true⟩ := by
      simp [recStep, hTag]
    simp only [runRec, List.foldl_cons]
    rw [hstep]
  · intro stt tok hne
    simp only [recStep]
    rw [hTag, if_neg (fun hh => hne hh.2)]
    have hsep : (if str "intersection_separator" = str "address_number" ∧
        stt.sep = true then '-' :: tok else ' ' :: tok) = ' ' :: tok :=
      if_neg (fun hh => absurd hh.1 (by decide))
    rw [hsep]

/-- C10 witness: a separator not preceded by an address number is
stored like any other token. -/
theorem c10_separator_deferral_witness :
    recStep ⟨[], none, false⟩ (str "&", str "IntersectionSeparator") =
      ⟨[(str "intersection_separator", str "&")],
       some (str "intersection_separator"), false⟩ := by
  have h := c10_separator_deferral.2.2 ⟨[], none, false⟩ (str "&") (by decide)
  rw [h]
  decide

/-- `splitFirstWord` on a non-empty string with no surrounding
whitespace: the first maximal non-whitespace run and the rest with its
leading whitespace dropped. -/
theorem splitFirstWord_of_trimmed {l : Str} (hw : noWsEnds l = true)
    (hne : l ≠ []) :
    splitFirstWord l =
      some (l.takeWhile (fun c => !c.isWhitespace),
        (l.dropWhile (fun c => !c.isWhitespace)).dropWhile
          (fun c => c.isWhitespace)) := by
  have ht : l.dropWhile (fun c => c.isWhitespace) = l := by
    rw [noWsEnds, Bool.and_eq_true] at hw
    exact trimL_eq_self hw.1
  simp only [splitFirstWord, ht, if_neg hne]

/-- `tryExtractDesignator` on a non-empty trimmed segment: the first
word is split off and kept exactly when it normalizes to a unit key. -/
theorem tryExtractDesignator_trimmed {l : Str} (hw : noWsEnds l = true)
    (hne : l ≠ []) :
    tryExtractDesignator l =
      (if isKey UNIT_MAP (normWord (l.takeWhile (fun c => !c.isWhitespace)))
          = true then
        some (l.takeWhile (fun c => !c.isWhitespace),
          (l.dropWhile (fun c => !c.isWhitespace)).dropWhile
            (fun c => c.isWhitespace))
       else none) := by
  have hts : trimWs l = l := trimWs_eq_self hw
  simp only [tryExtractDesignator, hts, if_neg hne,
    splitFirstWord_of_trimmed hw hne]

/-- One unfolding of the phase-1 loop equation, let-free. -/
theorem phase1_unfold (m : ComponentMap) :
    phase1 m =
      if ',' ∈ m.city then
        (if trimWs (m.city.takeWhile (fun c => c ≠ ',')) = [] ∨
            trimWs ((m.city.dropWhile (fun c => c ≠ ',')).drop 1) = [] then m
         else
           match tryExtractDesignator
             (trimWs (m.city.takeWhile (fun c => c ≠ ','))) with
           | some di =>
             phase1 { (match nextFreeSlot m with
               | some s =>
                 (if di.2 ≠ [] then setSlotId (setSlotType m s di.1) s di.2
                  else setSlotType m s di.1)
               | none => m) with
               city := trimWs ((m.city.dropWhile (fun c => c ≠ ',')).drop 1) }
           | none =>
             if ¬ ' ' ∈ trimWs (m.city.takeWhile (fun c => c ≠ ',')) ∧
                 inVocab (normWord
                   (trimWs (m.city.takeWhile (fun c => c ≠ ',')))) = false then
               phase1 { m with
                 city := trimWs ((m.city.dropWhile (fun c => c ≠ ',')).drop 1) }
             else m)
      else m := by
  conv_lhs => rw [phase1]
  by_cases hc : ',' ∈ m.city
  · rw [dif_pos hc, if_pos hc]
  · rw [dif_neg hc, if_neg hc]

/-- C3: Phase 1 of city recovery, on every component map, splits city at
the first comma into `before`/`after` and stops when either side is
empty; when the first word `w` of `before` normalizes to a unit
designator, the first free slot (occupancy before subaddress, a slot
being free only when both its fields are empty) receives `w` as type
and the remainder of `before` as identifier, city becomes `after` and
the loop continues; when `before` is a single word outside the combined
vocabulary city becomes `after` and the loop continues; otherwise city
is left as is. -/
theorem c3_city_recovery_phase1 (m : ComponentMap) (before after w rest : Str)
    (hb : before = trimWs (m.city.takeWhile (fun ch => ch ≠ ',')))
    (ha : after = trimWs ((m.city.dropWhile (fun ch => ch ≠ ',')).drop 1))
    (hw : w = before.takeWhile (fun ch => !ch.isWhitespace))
    (hr : rest = (before.dropWhile (fun ch => !ch.isWhitespace)).dropWhile
      (fun ch => ch.isWhitespace)) :
    phase1 m =
      if ',' ∈ m.city then
        (if before = [] ∨ after = [] then m
         else if isKey UNIT_MAP (normWord w) = true then
           phase1
             (if m.occupancy_type = [] ∧ m.occupancy_identifier = [] then
                { m with occupancy_type := w
                         occupancy_identifier := rest
                         city := after }
              else if m.subaddress_type = [] ∧ m.subaddress_identifier = []
              then
                { m with subaddress_type := w
                         subaddress_identifier := rest
                         city := after }
              else { m with city := after })
         else if ¬ ' ' ∈ before ∧ inVocab (normWord before) = false then
           phase1 { m with city := after }
         else m)
      else m := by
  subst hw
  subst hr
  subst hb
  subst ha
  conv_lhs => rw [phase1_unfold]
  by_cases hc : ',' ∈ m.city
  · rw [if_pos hc, if_pos hc]
    by_cases h0 : trimWs (m.city.takeWhile (fun c => c ≠ ',')) = [] ∨
        trimWs ((m.city.dropWhile (fun c => c ≠ ',')).drop 1) = []
    · rw [if_pos h0, if_pos h0]
    · rw [if_neg h0, if_neg h0]
      push_neg at h0
      rw [tryExtractDesignator_trimmed (noWsEnds_trimWs _) h0.1]
      by_cases hk : isKey UNIT_MAP (normWord
          ((trimWs (m.city.takeWhile (fun c => c ≠ ','))).takeWhile
            (fun c => !c.isWhitespace))) = true
      · rw [if_pos hk, if_pos hk]
        refine congrArg phase1 ?_
        by_cases ho : m.occupancy_type = [] ∧ m.occupancy_identifier = []
        · have hslot : nextFreeSlot m = some Slot.occ := by
            rw [nextFreeSlot, if_pos ho]
          simp only [hslot]
          rw [if_pos ho]
          by_cases hrne : ((trimWs (m.city.takeWhile
              (fun c => c ≠ ','))).dropWhile
                (fun c => !c.isWhitespace)).dropWhile
                  (fun c => c.isWhitespace) ≠ []
          · rw [if_pos hrne]
            rfl
          · rw [if_neg hrne]
            push_neg at hrne
            rw [hrne]
            apply cm_ext <;> simp [setSlotType, ho.2]
        · rw [if_neg ho]
          by_cases hs : m.subaddress_type = [] ∧ m.subaddress_identifier = []
          · have hslot : nextFreeSlot m = some Slot.sub := by
              rw [nextFreeSlot, if_neg ho, if_pos hs]
            simp only [hslot]
            rw [if_pos hs]
            by_cases hrne : ((trimWs (m.city.takeWhile
                (fun c => c ≠ ','))).dropWhile
                  (fun c => !c.isWhitespace)).dropWhile
                    (fun c => c.isWhitespace) ≠ []
            · rw [if_pos hrne]
              rfl
            · rw [if_neg hrne]
              push_neg at hrne
              rw [hrne]
              apply cm_ext <;> simp [setSlotType, hs.2]
          · have hslot : nextFreeSlot m = none := by
              rw [nextFreeSlot, if_neg ho, if_neg hs]
            simp only [hslot]
            rw [if_neg hs]
      · rw [if_neg hk, if_neg hk]
  · rw [if_neg hc, if_neg hc]

/-- C3 witness: a two-word `before` outside the designator case leaves
the map untouched. -/
theorem c3_city_recovery_phase1_witness :
    phase1 { emptyCM with city := str "NEW YORK, NY" } =
      { emptyCM with city := str "NEW YORK, NY" } := by
  rw [c3_city_recovery_phase1 { emptyCM with city := str "NEW YORK, NY" }
    (str "NEW YORK") (str "NY") (str "NEW") (str "YORK") rfl rfl rfl rfl]
  rw [if_pos (by decide), if_neg (by decide), if_neg (by decide),
    if_neg (by decide)]

/-- C4: Phase 2 of city recovery does nothing unless city contains a
space and the trimmed remainder after the first word is non-empty; a
first word normalizing into the fixed no-identifier designator set is
stored into the next free slot's type field when one exists and city
becomes the remainder unconditionally; a unit-designator first word
with no free slot only shortens city; otherwise nothing changes. -/
theorem c4_city_recovery_phase2 (m : ComponentMap) (first rest : Str)
    (hf : first = m.city.takeWhile (fun ch => ch ≠ ' '))
    (hr : rest = trimWs ((m.city.dropWhile (fun ch => ch ≠ ' ')).drop 1)) :
    phase2 m =
      if ' ' ∈ m.city ∧ rest ≠ [] then
        (if normWord first ∈
            [str "BASEMENT", str "BSMT", str "FRONT", str "FRNT",
             str "LOBBY", str "LBBY", str "LOWER", str "LOWR",
             str "PENTHOUSE", str "PH", str "REAR", str "SIDE",
             str "UPPER", str "UPPR"] then
          { (match nextFreeSlot m with
             | some s => setSlotType m s first
             | none => m) with city := rest }
         else if isKey UNIT_MAP (normWord first) = true ∧
             nextFreeSlot m = none then
           { m with city := rest }
         else m)
      else m := by
  subst hf
  subst hr
  have hL : NO_ID_DESIGNATORS =
      [str "BASEMENT", str "BSMT", str "FRONT", str "FRNT",
       str "LOBBY", str "LBBY", str "LOWER", str "LOWR",
       str "PENTHOUSE", str "PH", str "REAR", str "SIDE",
       str "UPPER", str "UPPR"] := rfl
  simp only [phase2]
  by_cases hsp : ' ' ∈ m.city
  · have hg : ¬ (m.city = [] ∨ ¬ ' ' ∈ m.city) := by
      push_neg
      refine ⟨?_, hsp⟩
      intro h
      rw [h] at hsp
      simp at hsp
    rw [if_neg hg]
    by_cases hrest : trimWs ((m.city.dropWhile (fun c => c ≠ ' ')).drop 1) = []
    · have hcond : ¬ (' ' ∈ m.city ∧
          trimWs ((m.city.dropWhile (fun ch => ch ≠ ' ')).drop 1) ≠ []) :=
        fun h => h.2 hrest
      rw [if_pos hrest, if_neg hcond]
    · have hcond : ' ' ∈ m.city ∧
          trimWs ((m.city.dropWhile (fun ch => ch ≠ ' ')).drop 1) ≠ [] :=
        And.intro hsp hrest
      rw [if_neg hrest, if_pos hcond, hL]
  · have hcond : ¬ (' ' ∈ m.city ∧
        trimWs ((m.city.dropWhile (fun ch => ch ≠ ' ')).drop 1) ≠ []) :=
      fun h => hsp h.1
    rw [if_pos (Or.inr hsp), if_neg hcond]

/-- C4 witness: LOWR takes the free occupancy slot and city shrinks. -/
theorem c4_city_recovery_phase2_witness :
    phase2 { emptyCM with city := str "LOWR BOISE" } =
      { emptyCM with occupancy_type := str "LOWR", city := str "BOISE" } := by
  rw [c4_city_recovery_phase2 { emptyCM with city := str "LOWR BOISE" }
    (str "LOWR") (str "BOISE") rfl rfl]
  decide
